import Mathlib

/-!
Temperature monitoring system: display layer and input state machine.

A shallow embedding of `Temperature Monitoring System/C_F test/C_F test/main.c`
(ATmega328P firmware, avr-gcc: `uint8_t` is 8 bits, `int` is 16 bits).

* 8-bit variables and registers are natural numbers; every store that can
  leave the range is written with an explicit `% 256`.
* The global variables of the firmware and the local `prevState` array of
  `main` form the record `State`; the hardware registers the firmware writes
  form the record `HW`.
* Each store to `PORTB` goes through `storePORTB`, which also appends the
  stored value to `portLog` and lets the display controller wired to the
  three serial lines observe the edge.
-/

namespace TempMonitor

/-! ## Pin definitions and constants (main.c lines 7-25)

`PDn` and `PBn` of `<avr/io.h>` are the bit numbers `n`. -/

def INCREMENT_BUTTON : Nat := 0
def DECREMENT_BUTTON : Nat := 1
def RESET_BUTTON : Nat := 2
def MODE_BUTTON : Nat := 7
def TOGGLE_BUTTON : Nat := 4

def COLD_LED : Nat := 5
def NORMAL_LED : Nat := 6
def WARMTH_LED : Nat := 3
def HOT_LED : Nat := 3
def ALARM_LED : Nat := 1

def DIN_PIN : Nat := 0
def CS_PIN : Nat := 2
def CLK_PIN : Nat := 5

def THRESHOLD_TEMP : Nat := 40

/-- Segment pattern for the letter C (main.c line 36). -/
def C_pattern : Nat := 0b01001110

/-- Segment pattern for the letter F (main.c line 37). -/
def F_pattern : Nat := 0b01000111

/-- Segment patterns for the digits 0 to 9 (main.c lines 40-51). -/
def digit_patterns : List Nat :=
  [0b01111110, 0b00110000, 0b01101101, 0b01111001, 0b00110011,
   0b01011011, 0b01011111, 0b01110000, 0b01111111, 0b01111011]

/-- The C operator `!x` on an integer: 1 when `x` is zero, else 0. -/
def lnot (x : Nat) : Nat := if x = 0 then 1 else 0

/-- The conversion `(uint8_t) x` of a non-negative integral value as avr-gcc
performs it: the low 8 bits. -/
def toUint8 (x : Int) : Nat := (x % 256).toNat

/-- Two's complement wrap of an integer into the 16-bit `int` of avr-gcc. -/
def wrapInt16 (x : Int) : Int := (x + 32768) % 65536 - 32768

/-! ## Hardware state -/

/-- The output registers written by the firmware, the history of the values
stored to `PORTB`, and the display controller on the serial lines: its 16-bit
shift register and its register file indexed by address (addresses 1 to 8 are
the digit positions). -/
structure HW where
  PORTB : Nat
  OCR0A : Nat
  OCR0B : Nat
  OCR2A : Nat
  OCR2B : Nat
  portLog : List Nat
  shiftReg : Nat
  digits : Nat → Nat

/-- One store of `v` to `PORTB`. The display controller samples the data line
into its shift register on a rising clock edge, and on a rising edge of
chip-select latches the low byte of the 16-bit frame into the register
addressed by the high byte (spec section 6: address:8, data:8, most
significant bit first, latched when chip-select is released). -/
def storePORTB (v : Nat) (hw : HW) : HW :=
  let sr := if (!hw.PORTB.testBit CLK_PIN && v.testBit CLK_PIN) = true
    then (hw.shiftReg * 2 + (if v.testBit DIN_PIN = true then 1 else 0)) % 65536
    else hw.shiftReg
  let dg := if (!hw.PORTB.testBit CS_PIN && v.testBit CS_PIN) = true
    then Function.update hw.digits (sr / 256) (sr % 256)
    else hw.digits
  { hw with PORTB := v, portLog := hw.portLog ++ [v], shiftReg := sr, digits := dg }

/-- The statement `PORTB |= (1 << n);` on the 8-bit port. -/
def portSet (n : Nat) (hw : HW) : HW :=
  storePORTB ((hw.PORTB ||| (1 <<< n)) % 256) hw

/-- The statement `PORTB &= ~(1 << n);`: the complement is taken in the 16-bit
`int` and the result is stored to the 8-bit port. -/
def portClear (n : Nat) (hw : HW) : HW :=
  storePORTB ((hw.PORTB &&& (65535 ^^^ (1 <<< n))) % 256) hw

/-! ## Serial display driver (main.c lines 85-146) -/

/-- The body of the two loops of `MAX7219_write` (lines 92-97 and 103-108)
for the tested bit `b`: put `b` on the data line, then raise and lower the
clock. -/
def clockBit (b : Bool) (hw : HW) : HW :=
  let hw := if b = true then portSet DIN_PIN hw else portClear DIN_PIN hw
  let hw := portSet CLK_PIN hw
  portClear CLK_PIN hw

/-- One of the two `for (uint8_t i = 8; i > 0; i--)` loops of `MAX7219_write`,
entered with loop variable `i`: for each `i` down to 1 the tested bit is
`x & (1 << (i - 1))`. -/
def shiftOut (x : Nat) : Nat → HW → HW
  | 0, hw => hw
  | i + 1, hw => shiftOut x i (clockBit (decide (x &&& (1 <<< (i + 1 - 1)) ≠ 0)) hw)

/-- Source function `MAX7219_write(address, data)` (main.c lines 85-112). -/
def MAX7219_write (address data : Nat) (hw : HW) : HW :=
  portSet CS_PIN (shiftOut data 8 (shiftOut address 8 (portClear CS_PIN hw)))

/-- Source function `MAX7219_init()` (main.c lines 114-121). -/
def MAX7219_init (hw : HW) : HW :=
  hw |> MAX7219_write 0x09 0x00 |> MAX7219_write 0x0A 0x0F |> MAX7219_write 0x0B 0x07
     |> MAX7219_write 0x0C 0x01 |> MAX7219_write 0x0F 0x00

/-- Source function `displayCount(count)` (main.c lines 123-128); `count` is a `uint8_t`. -/
def displayCount (count : Nat) (hw : HW) : HW :=
  hw |> MAX7219_write 2 (digit_patterns.getD (count % 10) 0)
     |> MAX7219_write 3 (digit_patterns.getD ((count / 10) % 10) 0)
     |> MAX7219_write 4 (digit_patterns.getD ((count / 100) % 10) 0)

/-- Source function `displayCharacter(position, pattern)` (main.c lines 130-133). -/
def displayCharacter (position pattern : Nat) (hw : HW) : HW :=
  MAX7219_write position pattern hw

/-- Source function `displayTempUnit(temp_unit)` (main.c lines 135-146). -/
def displayTempUnit (temp_unit : Nat) (hw : HW) : HW :=
  if temp_unit = 0 then displayCharacter 1 C_pattern hw
  else displayCharacter 1 F_pattern hw

/-- Source function `celsius_to_fahrenheit(celsius)` (main.c lines 148-151): the expression
`(celsius * 9 / 5) + 32` in 16-bit `int` arithmetic, division truncating
toward zero. The `float` return type carries this integer unchanged. -/
def celsius_to_fahrenheit (celsius : Int) : Int :=
  wrapInt16 ((wrapInt16 (celsius * 9)).tdiv 5 + 32)

/-! ## PWM intensity mapper (main.c lines 153-202) -/

/-- Source function `updateLEDs(count)` (main.c lines 153-185); `count` is a `uint8_t`. Under
each guard the `int` product stays below 32768; the store to the 8-bit duty
register keeps the low byte. -/
def updateLEDs (count : Nat) (hw : HW) : HW :=
  let hw := { hw with OCR0A := 0, OCR0B := 0, OCR2B := 0, OCR2A := 0 }
  let hw := portClear HOT_LED hw
  let hw := portClear ALARM_LED hw
  if count ≤ 15 then { hw with OCR0B := ((count * 255) / 15) % 256 }
  else if count ≤ 25 then { hw with OCR0A := (((count - 16) * 255) / 10) % 256 }
  else if count ≤ 35 then { hw with OCR2B := (((count - 26) * 255) / 10) % 256 }
  else if count ≤ 40 then { hw with OCR2A := (((count - 36) * 255) / 5) % 256 }
  else portSet HOT_LED hw

/-- The loop of `clearDisplay` entered with loop variable `9 - n`: `n` more
positions to clear. -/
def clearDisplayFrom : Nat → HW → HW
  | 0, hw => hw
  | n + 1, hw => clearDisplayFrom n (MAX7219_write (9 - (n + 1)) 0x00 hw)

/-- Source function `clearDisplay()` (main.c lines 187-193): positions 1 to 8. -/
def clearDisplay (hw : HW) : HW := clearDisplayFrom 8 hw

/-- Source function `clearLEDs()` (main.c lines 195-202). -/
def clearLEDs (hw : HW) : HW :=
  portClear HOT_LED { hw with OCR0A := 0, OCR0B := 0, OCR2B := 0, OCR2A := 0 }

/-! ## Controller state and the loop body of `main` (main.c lines 217-345) -/

/-- The global variables (main.c lines 28-33), the `prevState` array of `main`
and the hardware. -/
structure State where
  count : Nat
  temp_unit : Nat
  overflow : Nat
  mode : Nat
  displayMode : Nat
  alarmBlinkFlag : Nat
  prevState : Fin 5 → Nat
  hw : HW

/-- Lines 227-231: the five reads of `PIND`; `PIND k` is the value of the
input register at the read for button `k`. -/
def readButtons (PIND : Fin 5 → Nat) : Fin 5 → Nat := fun k =>
  match k with
  | 0 => lnot (PIND 0 &&& (1 <<< INCREMENT_BUTTON))
  | 1 => lnot (PIND 1 &&& (1 <<< DECREMENT_BUTTON))
  | 2 => lnot (PIND 2 &&& (1 <<< RESET_BUTTON))
  | 3 => lnot (PIND 3 &&& (1 <<< MODE_BUTTON))
  | 4 => lnot (PIND 4 &&& (1 <<< TOGGLE_BUTTON))

/-- Lines 234-244: the edge detector. -/
def detectPresses (currentState prevState : Fin 5 → Nat) : Fin 5 → Nat := fun i =>
  if currentState i ≠ 0 ∧ lnot (prevState i) ≠ 0 then 1 else 0

/-- Lines 247-256: the increment button. -/
def handleIncrement (pressed : Fin 5 → Nat) (s : State) : State :=
  if pressed 0 ≠ 0 then
    let s := { s with count := (s.count + 1) % 256 }
    let s := if s.count ≥ THRESHOLD_TEMP then { s with overflow := 1 } else s
    if s.count ≥ 200 then { s with count := 0 } else s
  else s

/-- Lines 258-274: the decrement button. -/
def handleDecrement (pressed : Fin 5 → Nat) (s : State) : State :=
  if pressed 1 ≠ 0 then
    let s := if s.count > 0 then { s with count := (s.count - 1) % 256 }
      else { s with count := 200, overflow := 1 }
    if s.count < THRESHOLD_TEMP then
      { s with overflow := 0, hw := portClear ALARM_LED s.hw }
    else s
  else s

/-- Lines 276-282: the reset button. -/
def handleReset (pressed : Fin 5 → Nat) (s : State) : State :=
  if pressed 2 ≠ 0 then
    { s with count := 0, overflow := 0, alarmBlinkFlag := 0,
             hw := portClear ALARM_LED s.hw }
  else s

/-- Lines 284-287: the unit button. -/
def handleMode (pressed : Fin 5 → Nat) (s : State) : State :=
  if pressed 3 ≠ 0 then { s with mode := lnot s.mode } else s

/-- Lines 289-300: the display button. -/
def handleToggle (pressed : Fin 5 → Nat) (s : State) : State :=
  if pressed 4 ≠ 0 then
    let s := { s with displayMode := lnot s.displayMode }
    if s.displayMode ≠ 0 then { s with hw := clearLEDs s.hw }
    else { s with hw := clearDisplay s.hw }
  else s

/-- Lines 303-322: update the active display. -/
def render (s : State) : State :=
  if s.displayMode ≠ 0 then
    if s.mode = 1 then
      { s with hw := displayTempUnit 0 (displayCount s.count s.hw) }
    else
      let fahrenheit := toUint8 (celsius_to_fahrenheit s.count)
      { s with hw := displayTempUnit 1 (displayCount fahrenheit s.hw) }
  else
    { s with hw := updateLEDs s.count s.hw }

/-- Lines 325-336: the alarm LED blinking. -/
def alarmBlink (s : State) : State :=
  if s.overflow ≠ 0 then
    let s := { s with alarmBlinkFlag := lnot s.alarmBlinkFlag }
    if s.alarmBlinkFlag ≠ 0 then { s with hw := portSet ALARM_LED s.hw }
    else { s with hw := portClear ALARM_LED s.hw }
  else s

/-- Lines 247-336 for given pressed flags. -/
def controller (pressed : Fin 5 → Nat) (s : State) : State :=
  s |> handleIncrement pressed |> handleDecrement pressed |> handleReset pressed
    |> handleMode pressed |> handleToggle pressed |> render |> alarmBlink

/-- One iteration of the `while (1)` loop (lines 227-342). -/
def tick (s : State) (PIND : Fin 5 → Nat) : State :=
  let currentState := readButtons PIND
  let pressed := detectPresses currentState s.prevState
  { (controller pressed s) with prevState := currentState }

/-- The registers after reset of the microcontroller and power-up of the
display controller: all zero. -/
def powerOn : HW :=
  { PORTB := 0, OCR0A := 0, OCR0B := 0, OCR2A := 0, OCR2B := 0,
    portLog := [], shiftReg := 0, digits := fun _ => 0 }

/-- Source function `setup()` (main.c lines 65-83). The data-direction, pull-up and timer
configuration registers are written here and read nowhere in the firmware;
they are not part of `HW`. -/
def setup (hw : HW) : HW := MAX7219_init hw

/-- The state on entry to the `while (1)` loop: the initialisers of lines
28-33 and 221, after `setup()`. -/
def initState : State :=
  { count := 0, temp_unit := 0, overflow := 0, mode := 1, displayMode := 1,
    alarmBlinkFlag := 0, prevState := fun _ => 1, hw := setup powerOn }

/-- States of the firmware at the end of some iteration of the loop (or on
entry to it), for arbitrary input samples. -/
inductive Reachable : State → Prop
  | init : Reachable initState
  | step (s : State) (PIND : Fin 5 → Nat) : Reachable s → Reachable (tick s PIND)

/-- The alarm is armed: `if (overflow)` holds. -/
def armed (s : State) : Prop := s.overflow ≠ 0

instance (s : State) : Decidable (armed s) := by unfold armed; infer_instance

/-- The level of the alarm output pin. -/
def alarmOutput (hw : HW) : Bool := hw.PORTB.testBit ALARM_LED

/-- The level of the discrete over-hot output pin. -/
def hotOutput (hw : HW) : Bool := hw.PORTB.testBit HOT_LED

/-! ## Observers and sample inputs used in the statements -/

/-- The pressed flags computed by a tick from state `s` and samples `PIND`
(lines 227-244). -/
def pressedIn (s : State) (PIND : Fin 5 → Nat) : Fin 5 → Nat :=
  detectPresses (readButtons PIND) s.prevState

/-- Button `k` has a press event and no other button has one. -/
def onlyPressed (k : Fin 5) (pressed : Fin 5 → Nat) : Prop :=
  ∀ i : Fin 5, pressed i ≠ 0 ↔ i = k

instance (k : Fin 5) (pressed : Fin 5 → Nat) : Decidable (onlyPressed k pressed) := by
  unfold onlyPressed; infer_instance

/-- Input samples with every button released (all pins high). -/
def pinsReleased : Fin 5 → Nat := fun _ => 0xFF

/-- Input samples with only the increment button held (PD0 low). -/
def pinsIncrement : Fin 5 → Nat := fun _ => 0xFE

/-- Input samples with only the decrement button held (PD1 low). -/
def pinsDecrement : Fin 5 → Nat := fun _ => 0xFD

/-- The initial state with Count and the alarm flag replaced and all buttons
recorded as released on the previous sample. -/
def stateAt (count overflow : Nat) : State :=
  { initState with count := count, overflow := overflow, prevState := fun _ => 0 }

/-- The exact rational Count*9/5 + 32 of the specification. -/
def fahrenheitExact (c : ℚ) : ℚ := c * 9 / 5 + 32

/-- Truncation of a rational toward zero. -/
def truncateTowardZero (q : ℚ) : ℤ := if 0 ≤ q then ⌊q⌋ else ⌈q⌉

/-- Input samples with only the unit button held (PD7 low). -/
def pinsMode : Fin 5 → Nat := fun _ => 0x7F

/-- Duty of the cold channel: `OCR0B` (main.c line 157). -/
def coldDuty (hw : HW) : Nat := hw.OCR0B

/-- Duty of the normal channel: `OCR0A` (main.c line 156). -/
def normalDuty (hw : HW) : Nat := hw.OCR0A

/-- Duty of the warm channel: `OCR2B` (main.c line 158). -/
def warmDuty (hw : HW) : Nat := hw.OCR2B

/-- Duty of the hot channel: `OCR2A` (main.c line 159). -/
def hotDuty (hw : HW) : Nat := hw.OCR2A

/-- Input samples with the decrement and unit buttons held (PD1 and PD7 low). -/
def pinsDecrementMode : Fin 5 → Nat := fun _ => 0x7D

/-- The level of the data line `din` at each rising edge of the clock line
`clk` in a sequence of port values that follows the port value `prev`. -/
def risingSamples (clk din : Nat) : Nat → List Nat → List Bool
  | _, [] => []
  | prev, v :: vs =>
    if (!prev.testBit clk && v.testBit clk) = true
    then v.testBit din :: risingSamples clk din v vs
    else risingSamples clk din v vs

/-- The number of falling edges of the line `clk` in a sequence of port values
that follows the port value `prev`. -/
def fallingEdges (clk : Nat) : Nat → List Nat → Nat
  | _, [] => 0
  | prev, v :: vs =>
    (if (prev.testBit clk && !v.testBit clk) = true then 1 else 0) + fallingEdges clk v vs

/-- Bits `i - 1` down to 0 of `x`, most significant first. -/
def bitsFrom (x : Nat) : Nat → List Bool
  | 0 => []
  | i + 1 => x.testBit i :: bitsFrom x i

/-- The state after the ticks for a sequence of input samples, oldest first. -/
def runTicks (s : State) (inputs : List (Fin 5 → Nat)) : State := inputs.foldl tick s

/-- For each tick of a sequence of input samples, whether button `k` has a
press event in that tick. -/
def pressTrace (k : Fin 5) : State → List (Fin 5 → Nat) → List Bool
  | _, [] => []
  | s, P :: Ps => decide (pressedIn s P k ≠ 0) :: pressTrace k (tick s P) Ps

/-- No button has a press event in any tick of the sequence. -/
def quietRun : State → List (Fin 5 → Nat) → Prop
  | _, [] => True
  | s, P :: Ps => (∀ i, pressedIn s P i = 0) ∧ quietRun (tick s P) Ps

/-- Button `k` has no press event in any tick of the sequence. -/
def unpressedRun (k : Fin 5) : State → List (Fin 5 → Nat) → Prop
  | _, [] => True
  | s, P :: Ps => pressedIn s P k = 0 ∧ unpressedRun k (tick s P) Ps

/-- Input samples with only the display button held (PD4 low). -/
def pinsToggle : Fin 5 → Nat := fun _ => 0xEF

/-- Input samples with the increment and decrement buttons held (PD0 and PD1
low). -/
def pinsIncrementDecrement : Fin 5 → Nat := fun _ => 0xFC

/-- Input samples with all five buttons held. -/
def pinsAll : Fin 5 → Nat := fun _ => 0x00

/-- The four PWM duties: cold, normal, warm, hot. -/
def duties (hw : HW) : List Nat := [coldDuty hw, normalDuty hw, warmDuty hw, hotDuty hw]

/-- The state a tick renders: the input state after the five button handlers
(lines 247-300). -/
def handled (s : State) (PIND : Fin 5 → Nat) : State :=
  handleToggle (pressedIn s PIND) (handleMode (pressedIn s PIND)
    (handleReset (pressedIn s PIND) (handleDecrement (pressedIn s PIND)
      (handleIncrement (pressedIn s PIND) s))))

/-- The state after a tick with samples `P1`, the ticks for the samples
`mids`, and a tick with samples `P2`. -/
def afterTwoPresses (s : State) (P1 : Fin 5 → Nat) (mids : List (Fin 5 → Nat))
    (P2 : Fin 5 → Nat) : State :=
  tick (runTicks (tick s P1) mids) P2

/-! ## Bit-level facts about the port operations -/

theorem testBit_setVal (p n b : Nat) :
    ((p ||| (1 <<< n)) % 256).testBit b = (decide (b < 8) && (p.testBit b || decide (n = b))) := by
  rw [show (256 : Nat) = 2 ^ 8 from rfl, Nat.testBit_mod_two_pow, Nat.testBit_or,
    Nat.one_shiftLeft, Nat.testBit_two_pow]

theorem testBit_clearVal (p n b : Nat) :
    ((p &&& (65535 ^^^ (1 <<< n))) % 256).testBit b
      = (decide (b < 8) && (p.testBit b && !decide (n = b))) := by
  rw [show (256 : Nat) = 2 ^ 8 from rfl, Nat.testBit_mod_two_pow, Nat.testBit_and,
    Nat.testBit_xor, Nat.one_shiftLeft, Nat.testBit_two_pow,
    show (65535 : Nat) = 2 ^ 16 - 1 from rfl, Nat.testBit_two_pow_sub_one]
  by_cases h8 : b < 8
  · have : b < 16 := by omega
    simp [h8, this]
  · simp [h8]

theorem and_shift_ne_zero (x i : Nat) : (x &&& (1 <<< i) ≠ 0) ↔ x.testBit i = true := by
  rw [Nat.one_shiftLeft, Nat.and_two_pow]
  cases h : x.testBit i <;> simp

@[simp]
theorem storePORTB_PORTB (v : Nat) (hw : HW) : (storePORTB v hw).PORTB = v := rfl
@[simp]
theorem storePORTB_OCR0A (v : Nat) (hw : HW) : (storePORTB v hw).OCR0A = hw.OCR0A := rfl
@[simp]
theorem storePORTB_OCR0B (v : Nat) (hw : HW) : (storePORTB v hw).OCR0B = hw.OCR0B := rfl
@[simp]
theorem storePORTB_OCR2A (v : Nat) (hw : HW) : (storePORTB v hw).OCR2A = hw.OCR2A := rfl
@[simp]
theorem storePORTB_OCR2B (v : Nat) (hw : HW) : (storePORTB v hw).OCR2B = hw.OCR2B := rfl
@[simp]
theorem storePORTB_portLog (v : Nat) (hw : HW) :
    (storePORTB v hw).portLog = hw.portLog ++ [v] := rfl

@[simp]
theorem portSet_OCR0A (n : Nat) (hw : HW) : (portSet n hw).OCR0A = hw.OCR0A := rfl
@[simp]
theorem portSet_OCR0B (n : Nat) (hw : HW) : (portSet n hw).OCR0B = hw.OCR0B := rfl
@[simp]
theorem portSet_OCR2A (n : Nat) (hw : HW) : (portSet n hw).OCR2A = hw.OCR2A := rfl
@[simp]
theorem portSet_OCR2B (n : Nat) (hw : HW) : (portSet n hw).OCR2B = hw.OCR2B := rfl
@[simp]
theorem portClear_OCR0A (n : Nat) (hw : HW) : (portClear n hw).OCR0A = hw.OCR0A := rfl
@[simp]
theorem portClear_OCR0B (n : Nat) (hw : HW) : (portClear n hw).OCR0B = hw.OCR0B := rfl
@[simp]
theorem portClear_OCR2A (n : Nat) (hw : HW) : (portClear n hw).OCR2A = hw.OCR2A := rfl
@[simp]
theorem portClear_OCR2B (n : Nat) (hw : HW) : (portClear n hw).OCR2B = hw.OCR2B := rfl

theorem portSet_testBit (n b : Nat) (hw : HW) :
    (portSet n hw).PORTB.testBit b
      = (decide (b < 8) && (hw.PORTB.testBit b || decide (n = b))) :=
  testBit_setVal _ _ _

theorem portClear_testBit (n b : Nat) (hw : HW) :
    (portClear n hw).PORTB.testBit b
      = (decide (b < 8) && (hw.PORTB.testBit b && !decide (n = b))) :=
  testBit_clearVal _ _ _

theorem portSet_lt (n : Nat) (hw : HW) : (portSet n hw).PORTB < 256 :=
  Nat.mod_lt _ (by decide)

theorem portClear_lt (n : Nat) (hw : HW) : (portClear n hw).PORTB < 256 :=
  Nat.mod_lt _ (by decide)

theorem storePORTB_chip_of_noEdge (v : Nat) (hw : HW)
    (hclk : (!hw.PORTB.testBit CLK_PIN && v.testBit CLK_PIN) = false)
    (hcs : (!hw.PORTB.testBit CS_PIN && v.testBit CS_PIN) = false) :
    (storePORTB v hw).digits = hw.digits ∧ (storePORTB v hw).shiftReg = hw.shiftReg := by
  unfold storePORTB
  simp [hclk, hcs]

/-- Clearing a bit never produces a rising edge: the display controller is
unaffected. -/
theorem portClear_chip (n : Nat) (hw : HW) :
    (portClear n hw).digits = hw.digits ∧ (portClear n hw).shiftReg = hw.shiftReg := by
  apply storePORTB_chip_of_noEdge
  · rw [testBit_clearVal]; cases hw.PORTB.testBit CLK_PIN <;> simp
  · rw [testBit_clearVal]; cases hw.PORTB.testBit CS_PIN <;> simp

/-- Setting a bit other than clock and chip-select leaves the display
controller unaffected. -/
theorem portSet_chip (n : Nat) (hw : HW) (h1 : n ≠ CLK_PIN) (h2 : n ≠ CS_PIN) :
    (portSet n hw).digits = hw.digits ∧ (portSet n hw).shiftReg = hw.shiftReg := by
  apply storePORTB_chip_of_noEdge
  · rw [testBit_setVal]; cases hw.PORTB.testBit CLK_PIN <;> simp [h1]
  · rw [testBit_setVal]; cases hw.PORTB.testBit CS_PIN <;> simp [h2]

/-- Raising the clock from low shifts the data line into the shift register. -/
theorem portSet_CLK_chip (hw : HW) (h : hw.PORTB.testBit CLK_PIN = false) :
    (portSet CLK_PIN hw).digits = hw.digits ∧
    (portSet CLK_PIN hw).shiftReg
      = (hw.shiftReg * 2 + (if hw.PORTB.testBit DIN_PIN = true then 1 else 0)) % 65536 := by
  have e1 := testBit_setVal hw.PORTB CLK_PIN CLK_PIN
  have e2 := testBit_setVal hw.PORTB CLK_PIN CS_PIN
  have e3 := testBit_setVal hw.PORTB CLK_PIN DIN_PIN
  unfold portSet storePORTB
  simp only [e1, e2, e3, h]
  cases hw.PORTB.testBit CS_PIN <;> simp [CLK_PIN, CS_PIN, DIN_PIN]

/-- Raising chip-select from low latches the frame in the shift register. -/
theorem portSet_CS_chip (hw : HW) (h : hw.PORTB.testBit CS_PIN = false) :
    (portSet CS_PIN hw).digits
      = Function.update hw.digits (hw.shiftReg / 256) (hw.shiftReg % 256) ∧
    (portSet CS_PIN hw).shiftReg = hw.shiftReg := by
  have e1 := testBit_setVal hw.PORTB CS_PIN CLK_PIN
  have e2 := testBit_setVal hw.PORTB CS_PIN CS_PIN
  unfold portSet storePORTB
  simp only [e1, e2, h]
  cases hw.PORTB.testBit CLK_PIN <;> simp [CLK_PIN, CS_PIN]


theorem clockBit_frame (b : Bool) (hw : HW) :
    (clockBit b hw).OCR0A = hw.OCR0A ∧ (clockBit b hw).OCR0B = hw.OCR0B ∧
    (clockBit b hw).OCR2A = hw.OCR2A ∧ (clockBit b hw).OCR2B = hw.OCR2B ∧
    (clockBit b hw).PORTB < 256 := by
  unfold clockBit
  cases b <;> simp [portClear_lt]

theorem clockBit_testBit (b : Bool) (hw : HW) (c : Nat) :
    (clockBit b hw).PORTB.testBit c
      = (decide (c < 8) && (if c = DIN_PIN then b else if c = CLK_PIN then false
          else hw.PORTB.testBit c)) := by
  unfold clockBit
  cases b <;>
    simp only [Bool.false_eq_true, if_true, if_false, portClear_testBit, portSet_testBit,
      CLK_PIN, DIN_PIN] <;>
    by_cases h8 : c < 8 <;> by_cases h0 : c = 0 <;> by_cases h5 : c = 5 <;>
    simp [h8, h0, h5, eq_comm]

theorem clockBit_chip (b : Bool) (hw : HW) (h : hw.PORTB.testBit CLK_PIN = false) :
    (clockBit b hw).digits = hw.digits ∧
    (clockBit b hw).shiftReg = (hw.shiftReg * 2 + b.toNat) % 65536 := by
  unfold clockBit
  cases b
  · have h1 : (portClear DIN_PIN hw).PORTB.testBit CLK_PIN = false := by
      rw [portClear_testBit, h]; simp
    have h2 : (portClear DIN_PIN hw).PORTB.testBit DIN_PIN = false := by
      rw [portClear_testBit]; simp
    simp [portClear_chip, portSet_CLK_chip _ h1, h2]
  · have h1 : (portSet DIN_PIN hw).PORTB.testBit CLK_PIN = false := by
      rw [portSet_testBit, h]; simp [DIN_PIN, CLK_PIN]
    have h2 : (portSet DIN_PIN hw).PORTB.testBit DIN_PIN = true := by
      rw [portSet_testBit]; simp [DIN_PIN]
    simp [portClear_chip, portSet_CLK_chip _ h1, h2,
      portSet_chip DIN_PIN hw (by decide) (by decide)]


theorem shiftOut_succ (x i : Nat) (hw : HW) :
    shiftOut x (i + 1) hw = shiftOut x i (clockBit (x.testBit i) hw) := by
  have h : decide (x &&& (1 <<< (i + 1 - 1)) ≠ 0) = x.testBit i := by
    rw [Nat.add_sub_cancel]
    cases hb : x.testBit i
    · simpa using (and_shift_ne_zero x i).not.mpr (by simp [hb])
    · simpa using (and_shift_ne_zero x i).mpr hb
  simp only [shiftOut, h]

theorem shiftOut_frame (x : Nat) : ∀ (i : Nat) (hw : HW),
    (shiftOut x i hw).OCR0A = hw.OCR0A ∧ (shiftOut x i hw).OCR0B = hw.OCR0B ∧
    (shiftOut x i hw).OCR2A = hw.OCR2A ∧ (shiftOut x i hw).OCR2B = hw.OCR2B ∧
    (hw.PORTB < 256 → (shiftOut x i hw).PORTB < 256) ∧
    (hw.PORTB.testBit CLK_PIN = false → (shiftOut x i hw).PORTB.testBit CLK_PIN = false) ∧
    (∀ c, c < 8 → c ≠ DIN_PIN → c ≠ CLK_PIN →
      (shiftOut x i hw).PORTB.testBit c = hw.PORTB.testBit c)
  | 0, hw => by simp [shiftOut]
  | i + 1, hw => by
    rw [shiftOut_succ]
    obtain ⟨h1, h2, h3, h4, h5, h6, h7⟩ := shiftOut_frame x i (clockBit (x.testBit i) hw)
    obtain ⟨g1, g2, g3, g4, g5⟩ := clockBit_frame (x.testBit i) hw
    refine ⟨h1.trans g1, h2.trans g2, h3.trans g3, h4.trans g4, fun _ => h5 g5, fun _ => ?_, ?_⟩
    · exact h6 (by rw [clockBit_testBit]; simp [CLK_PIN, DIN_PIN])
    · intro c hc hd hk
      rw [h7 c hc hd hk, clockBit_testBit]
      simp [hc, hd, hk]

theorem shiftOut_chip (x : Nat) : ∀ (i : Nat) (hw : HW), hw.PORTB.testBit CLK_PIN = false →
    (shiftOut x i hw).digits = hw.digits ∧
    (shiftOut x i hw).shiftReg % 65536 = (hw.shiftReg * 2 ^ i + x % 2 ^ i) % 65536 ∧
    (0 < i → (shiftOut x i hw).shiftReg < 65536)
  | 0, hw, _ => by simp [shiftOut, Nat.mod_one]
  | i + 1, hw, h => by
    rw [shiftOut_succ]
    have hk : (clockBit (x.testBit i) hw).PORTB.testBit CLK_PIN = false := by
      rw [clockBit_testBit]; simp [CLK_PIN, DIN_PIN]
    obtain ⟨h1, h2, h3⟩ := shiftOut_chip x i (clockBit (x.testBit i) hw) hk
    obtain ⟨g1, g2⟩ := clockBit_chip (x.testBit i) hw h
    refine ⟨h1.trans g1, ?_, fun _ => ?_⟩
    · rw [h2, g2, Nat.toNat_testBit, Nat.mod_pow_succ]
      have e : ((hw.shiftReg * 2 + x / 2 ^ i % 2) % 65536 * 2 ^ i + x % 2 ^ i) % 65536
          = ((hw.shiftReg * 2 + x / 2 ^ i % 2) * 2 ^ i + x % 2 ^ i) % 65536 := by
        rw [Nat.add_mod, Nat.mul_mod, Nat.mod_mod, ← Nat.mul_mod, ← Nat.add_mod]
      rw [e]
      congr 1
      ring
    · rcases Nat.eq_zero_or_pos i with hi | hi
      · subst hi
        simp only [shiftOut, g2]
        exact Nat.mod_lt _ (by decide)
      · exact h3 hi

theorem MAX7219_write_frame (address data : Nat) (hw : HW) :
    (MAX7219_write address data hw).OCR0A = hw.OCR0A ∧
    (MAX7219_write address data hw).OCR0B = hw.OCR0B ∧
    (MAX7219_write address data hw).OCR2A = hw.OCR2A ∧
    (MAX7219_write address data hw).OCR2B = hw.OCR2B ∧
    (MAX7219_write address data hw).PORTB < 256 ∧
    (MAX7219_write address data hw).PORTB.testBit CS_PIN = true ∧
    (hw.PORTB.testBit CLK_PIN = false →
      (MAX7219_write address data hw).PORTB.testBit CLK_PIN = false) ∧
    (∀ c, c < 8 → c ≠ DIN_PIN → c ≠ CLK_PIN → c ≠ CS_PIN →
      (MAX7219_write address data hw).PORTB.testBit c = hw.PORTB.testBit c) := by
  unfold MAX7219_write
  obtain ⟨a1, a2, a3, a4, _, a6, a7⟩ := shiftOut_frame address 8 (portClear CS_PIN hw)
  obtain ⟨d1, d2, d3, d4, _, d6, d7⟩ :=
    shiftOut_frame data 8 (shiftOut address 8 (portClear CS_PIN hw))
  refine ⟨?_, ?_, ?_, ?_, portSet_lt _ _, ?_, fun h => ?_, fun c hc hd hk hs => ?_⟩
  · simp [d1, a1]
  · simp [d2, a2]
  · simp [d3, a3]
  · simp [d4, a4]
  · rw [portSet_testBit]; simp [CS_PIN]
  · rw [portSet_testBit, d6 (a6 (by rw [portClear_testBit, h]; simp))]
    simp [CS_PIN, CLK_PIN]
  · rw [portSet_testBit, d7 c hc hd hk, a7 c hc hd hk, portClear_testBit]
    simp [hc, Ne.symm hs]

/-- With the clock idle low on entry, `MAX7219_write` latches `data` into the
register `address` of the display controller. -/
theorem MAX7219_write_chip (address data : Nat) (hw : HW) (ha : address < 256)
    (hd : data < 256) (h : hw.PORTB.testBit CLK_PIN = false) :
    (MAX7219_write address data hw).digits = Function.update hw.digits address data ∧
    (MAX7219_write address data hw).shiftReg = address * 256 + data := by
  unfold MAX7219_write
  have h0 : (portClear CS_PIN hw).PORTB.testBit CLK_PIN = false := by
    rw [portClear_testBit, h]; simp
  obtain ⟨_, _, _, _, _, a6, a7⟩ := shiftOut_frame address 8 (portClear CS_PIN hw)
  obtain ⟨_, _, _, _, _, d6, d7⟩ :=
    shiftOut_frame data 8 (shiftOut address 8 (portClear CS_PIN hw))
  obtain ⟨a1, a2, _⟩ := shiftOut_chip address 8 (portClear CS_PIN hw) h0
  obtain ⟨d1, d2, d3⟩ :=
    shiftOut_chip data 8 (shiftOut address 8 (portClear CS_PIN hw)) (a6 h0)
  have hcs : (shiftOut data 8 (shiftOut address 8 (portClear CS_PIN hw))).PORTB.testBit
      CS_PIN = false := by
    rw [d7 CS_PIN (by decide) (by decide) (by decide),
      a7 CS_PIN (by decide) (by decide) (by decide), portClear_testBit]
    simp
  have hsr : (shiftOut data 8 (shiftOut address 8 (portClear CS_PIN hw))).shiftReg
      = address * 256 + data := by
    have e := d3 (by decide)
    simp only [Nat.reducePow] at a2 d2
    omega
  obtain ⟨c1, c2⟩ := portSet_CS_chip _ hcs
  have e1 : (address * 256 + data) / 256 = address := by omega
  have e2 : (address * 256 + data) % 256 = data := by omega
  rw [c1, c2, hsr, d1, a1, (portClear_chip CS_PIN hw).1, e1, e2]
  exact ⟨rfl, rfl⟩

/-! ## The controller on Count and the alarm flag -/

@[simp]
theorem handleMode_count (p : Fin 5 → Nat) (s : State) :
    (handleMode p s).count = s.count := by unfold handleMode; split <;> rfl

@[simp]
theorem handleMode_overflow (p : Fin 5 → Nat) (s : State) :
    (handleMode p s).overflow = s.overflow := by unfold handleMode; split <;> rfl

@[simp]
theorem handleMode_alarmBlinkFlag (p : Fin 5 → Nat) (s : State) :
    (handleMode p s).alarmBlinkFlag = s.alarmBlinkFlag := by unfold handleMode; split <;> rfl

@[simp]
theorem handleMode_hw (p : Fin 5 → Nat) (s : State) :
    (handleMode p s).hw = s.hw := by unfold handleMode; split <;> rfl

@[simp]
theorem handleToggle_count (p : Fin 5 → Nat) (s : State) :
    (handleToggle p s).count = s.count := by
  unfold handleToggle; split
  · simp only; split <;> rfl
  · rfl

@[simp]
theorem handleToggle_overflow (p : Fin 5 → Nat) (s : State) :
    (handleToggle p s).overflow = s.overflow := by
  unfold handleToggle; split
  · simp only; split <;> rfl
  · rfl

@[simp]
theorem handleToggle_alarmBlinkFlag (p : Fin 5 → Nat) (s : State) :
    (handleToggle p s).alarmBlinkFlag = s.alarmBlinkFlag := by
  unfold handleToggle; split
  · simp only; split <;> rfl
  · rfl

@[simp]
theorem render_count (s : State) : (render s).count = s.count := by
  unfold render; split
  · split <;> rfl
  · rfl

@[simp]
theorem render_overflow (s : State) : (render s).overflow = s.overflow := by
  unfold render; split
  · split <;> rfl
  · rfl

@[simp]
theorem render_alarmBlinkFlag (s : State) :
    (render s).alarmBlinkFlag = s.alarmBlinkFlag := by
  unfold render; split
  · split <;> rfl
  · rfl

@[simp]
theorem alarmBlink_count (s : State) : (alarmBlink s).count = s.count := by
  unfold alarmBlink; split
  · simp only; split <;> rfl
  · rfl

@[simp]
theorem alarmBlink_overflow (s : State) : (alarmBlink s).overflow = s.overflow := by
  unfold alarmBlink; split
  · simp only; split <;> rfl
  · rfl

/-- Count and the alarm flag at the end of a tick are those left by the three
count handlers. -/
theorem tick_count (s : State) (PIND : Fin 5 → Nat) :
    (tick s PIND).count
      = (handleReset (pressedIn s PIND) (handleDecrement (pressedIn s PIND)
          (handleIncrement (pressedIn s PIND) s))).count := by
  simp [tick, controller, pressedIn]

theorem tick_overflow (s : State) (PIND : Fin 5 → Nat) :
    (tick s PIND).overflow
      = (handleReset (pressedIn s PIND) (handleDecrement (pressedIn s PIND)
          (handleIncrement (pressedIn s PIND) s))).overflow := by
  simp [tick, controller, pressedIn]

theorem handleIncrement_count (p : Fin 5 → Nat) (s : State) :
    (handleIncrement p s).count
      = if p 0 ≠ 0 then (if (s.count + 1) % 256 ≥ 200 then 0 else (s.count + 1) % 256)
        else s.count := by
  simp only [handleIncrement]
  split_ifs <;> simp_all

theorem handleIncrement_overflow (p : Fin 5 → Nat) (s : State) :
    (handleIncrement p s).overflow
      = if p 0 ≠ 0 ∧ (s.count + 1) % 256 ≥ THRESHOLD_TEMP then 1 else s.overflow := by
  simp only [handleIncrement]
  split_ifs <;> simp_all

theorem handleDecrement_count (p : Fin 5 → Nat) (s : State) :
    (handleDecrement p s).count
      = if p 1 ≠ 0 then (if s.count > 0 then (s.count - 1) % 256 else 200) else s.count := by
  simp only [handleDecrement]
  split_ifs <;> simp_all

theorem handleDecrement_overflow (p : Fin 5 → Nat) (s : State) :
    (handleDecrement p s).overflow
      = if p 1 ≠ 0 then
          (if (handleDecrement p s).count < THRESHOLD_TEMP then 0
           else if s.count > 0 then s.overflow else 1)
        else s.overflow := by
  rw [handleDecrement_count]
  simp only [handleDecrement]
  split_ifs <;> simp_all

theorem handleReset_count (p : Fin 5 → Nat) (s : State) :
    (handleReset p s).count = if p 2 ≠ 0 then 0 else s.count := by
  unfold handleReset; split <;> rfl

theorem handleReset_overflow (p : Fin 5 → Nat) (s : State) :
    (handleReset p s).overflow = if p 2 ≠ 0 then 0 else s.overflow := by
  unfold handleReset; split <;> rfl

theorem tick_count_le (s : State) (PIND : Fin 5 → Nat) (h : s.count ≤ 200) :
    (tick s PIND).count ≤ 200 := by
  rw [tick_count, handleReset_count, handleDecrement_count, handleIncrement_count]
  split_ifs <;> omega

/-- C1: in every reachable state Count lies in [0, 200], and the 8-bit
increment of Count does not wrap modulo 256 there. -/
theorem C1_count_in_range (s : State) (h : Reachable s) :
    0 ≤ s.count ∧ s.count ≤ 200 ∧ (s.count + 1) % 256 = s.count + 1 := by
  have hle : s.count ≤ 200 := by
    induction h with
    | init => decide
    | step s PIND _ ih => exact tick_count_le s PIND ih
  exact ⟨Nat.zero_le _, hle, Nat.mod_eq_of_lt (by omega)⟩

theorem C1_count_in_range_witness :
    Reachable (tick (tick initState pinsReleased) pinsIncrement) ∧
    (tick (tick initState pinsReleased) pinsIncrement).count ≤ 200 :=
  ⟨Reachable.step _ _ (Reachable.step _ _ Reachable.init),
   (C1_count_in_range _ (Reachable.step _ _ (Reachable.step _ _ Reachable.init))).2.1⟩

/-- C2: from Count in [0, 200], a tick whose only event is increment yields 0
if Count + 1 >= 200 and Count + 1 otherwise; a tick whose only event is
decrement yields Count - 1 if Count > 0 and 200 otherwise; after the increment
from 199 and after the decrement from 0 the alarm is armed. -/
theorem C2_increment_decrement_wrap (s : State) (PIND : Fin 5 → Nat) (h : s.count ≤ 200) :
    (onlyPressed 0 (pressedIn s PIND) →
      (tick s PIND).count = (if s.count + 1 ≥ 200 then 0 else s.count + 1) ∧
      (s.count = 199 → (tick s PIND).count = 0 ∧ armed (tick s PIND))) ∧
    (onlyPressed 1 (pressedIn s PIND) →
      (tick s PIND).count = (if s.count > 0 then s.count - 1 else 200) ∧
      (s.count = 0 → (tick s PIND).count = 200 ∧ armed (tick s PIND))) := by
  constructor
  · intro hp
    have p0 : pressedIn s PIND 0 ≠ 0 := (hp 0).mpr rfl
    have p1 : ¬ pressedIn s PIND 1 ≠ 0 := fun c => absurd ((hp 1).mp c) (by decide)
    have p2 : ¬ pressedIn s PIND 2 ≠ 0 := fun c => absurd ((hp 2).mp c) (by decide)
    have hc : (tick s PIND).count = (if s.count + 1 ≥ 200 then 0 else s.count + 1) := by
      rw [tick_count, handleReset_count, handleDecrement_count, handleIncrement_count,
        if_neg p2, if_neg p1, if_pos p0, Nat.mod_eq_of_lt (by omega)]
    refine ⟨hc, fun h199 => ⟨by rw [hc, h199]; rfl, ?_⟩⟩
    unfold armed
    rw [tick_overflow, handleReset_overflow, handleDecrement_overflow,
      handleIncrement_overflow, if_neg p2, if_neg p1, h199]
    simp [p0, THRESHOLD_TEMP]
  · intro hp
    have p0 : ¬ pressedIn s PIND 0 ≠ 0 := fun c => absurd ((hp 0).mp c) (by decide)
    have p1 : pressedIn s PIND 1 ≠ 0 := (hp 1).mpr rfl
    have p2 : ¬ pressedIn s PIND 2 ≠ 0 := fun c => absurd ((hp 2).mp c) (by decide)
    have e0 : (handleIncrement (pressedIn s PIND) s).count = s.count := by
      rw [handleIncrement_count, if_neg p0]
    have hc : (tick s PIND).count = (if s.count > 0 then s.count - 1 else 200) := by
      rw [tick_count, handleReset_count, handleDecrement_count, e0, if_neg p2, if_pos p1]
      split_ifs
      · exact Nat.mod_eq_of_lt (by omega)
      · rfl
    refine ⟨hc, fun h0 => ⟨by rw [hc, h0]; rfl, ?_⟩⟩
    unfold armed
    rw [tick_overflow, handleReset_overflow, handleDecrement_overflow,
      handleDecrement_count, e0, if_neg p2, if_pos p1, if_pos p1, h0]
    simp [THRESHOLD_TEMP]

theorem C2_increment_decrement_wrap_witness :
    ((tick (stateAt 199 0) pinsIncrement).count = 0 ∧ armed (tick (stateAt 199 0) pinsIncrement)) ∧
    ((tick (stateAt 0 0) pinsDecrement).count = 200 ∧ armed (tick (stateAt 0 0) pinsDecrement)) :=
  ⟨((C2_increment_decrement_wrap (stateAt 199 0) pinsIncrement (by decide)).1 (by decide)).2 rfl,
   ((C2_increment_decrement_wrap (stateAt 0 0) pinsDecrement (by decide)).2 (by decide)).2 rfl⟩

theorem tick_armed_above (s : State) (PIND : Fin 5 → Nat)
    (h : THRESHOLD_TEMP ≤ s.count → s.overflow ≠ 0) :
    THRESHOLD_TEMP ≤ (tick s PIND).count → (tick s PIND).overflow ≠ 0 := by
  rw [tick_count, tick_overflow, handleReset_count, handleReset_overflow,
    handleDecrement_overflow, handleDecrement_count, handleIncrement_count,
    handleIncrement_overflow]
  simp only [THRESHOLD_TEMP] at h ⊢
  split_ifs <;> omega

theorem tick_disarm_cause (s : State) (PIND : Fin 5 → Nat) (h : s.overflow ≠ 0)
    (h2 : (tick s PIND).overflow = 0) :
    pressedIn s PIND 2 ≠ 0 ∨
      (pressedIn s PIND 1 ≠ 0 ∧ (tick s PIND).count < THRESHOLD_TEMP) := by
  revert h2
  rw [tick_count, tick_overflow, handleReset_count, handleReset_overflow,
    handleDecrement_overflow, handleDecrement_count, handleIncrement_count,
    handleIncrement_overflow]
  simp only [THRESHOLD_TEMP]
  split_ifs <;> simp_all

/-- C3: in every reachable state Count >= 40 implies that the alarm is armed,
and an armed alarm is still armed after a tick unless the tick had a reset
event or a decrement event that left Count below 40. -/
theorem C3_armed_at_or_above_threshold (s : State) (h : Reachable s) :
    (THRESHOLD_TEMP ≤ s.count → armed s) ∧
    (∀ PIND : Fin 5 → Nat, armed s → ¬ armed (tick s PIND) →
      pressedIn s PIND 2 ≠ 0 ∨
        (pressedIn s PIND 1 ≠ 0 ∧ (tick s PIND).count < THRESHOLD_TEMP)) := by
  constructor
  · unfold armed
    induction h with
    | init => decide
    | step s PIND _ ih => exact tick_armed_above s PIND ih
  · intro PIND ha hn
    exact tick_disarm_cause s PIND ha (by simpa [armed] using hn)

theorem C3_armed_at_or_above_threshold_witness :
    Reachable (tick (tick initState pinsReleased) pinsDecrement) ∧
    THRESHOLD_TEMP ≤ (tick (tick initState pinsReleased) pinsDecrement).count ∧
    armed (tick (tick initState pinsReleased) pinsDecrement) :=
  ⟨Reachable.step _ _ (Reachable.step _ _ Reachable.init), by decide,
   (C3_armed_at_or_above_threshold _
      (Reachable.step _ _ (Reachable.step _ _ Reachable.init))).1 (by decide)⟩

/-- C4: from Count in [0, 200], after a tick whose only event is increment the
alarm is armed iff it was armed before or Count + 1 >= 40; from Count in
[1, 200], after a tick whose only event is decrement the alarm is disarmed if
the resulting Count is below 40 and otherwise keeps its previous value. -/
theorem C4_alarm_on_increment_decrement (s : State) (PIND : Fin 5 → Nat)
    (h : s.count ≤ 200) :
    (onlyPressed 0 (pressedIn s PIND) →
      (armed (tick s PIND) ↔ armed s ∨ THRESHOLD_TEMP ≤ s.count + 1) ∧
      (armed s → armed (tick s PIND))) ∧
    (1 ≤ s.count → onlyPressed 1 (pressedIn s PIND) →
      ((tick s PIND).count < THRESHOLD_TEMP → ¬ armed (tick s PIND)) ∧
      (¬ (tick s PIND).count < THRESHOLD_TEMP →
        (tick s PIND).overflow = s.overflow)) := by
  constructor
  · intro hp
    have p0 : pressedIn s PIND 0 ≠ 0 := (hp 0).mpr rfl
    have p1 : ¬ pressedIn s PIND 1 ≠ 0 := fun c => absurd ((hp 1).mp c) (by decide)
    have p2 : ¬ pressedIn s PIND 2 ≠ 0 := fun c => absurd ((hp 2).mp c) (by decide)
    have e : (tick s PIND).overflow
        = if THRESHOLD_TEMP ≤ s.count + 1 then 1 else s.overflow := by
      rw [tick_overflow, handleReset_overflow, handleDecrement_overflow,
        handleIncrement_overflow, if_neg p2, if_neg p1, Nat.mod_eq_of_lt (by omega)]
      simp [p0]
    unfold armed
    rw [e]
    constructor
    · split_ifs with hc
      · simp [hc]
      · simp [hc]
    · intro ha
      split_ifs
      · decide
      · exact ha
  · intro h1 hp
    have p0 : ¬ pressedIn s PIND 0 ≠ 0 := fun c => absurd ((hp 0).mp c) (by decide)
    have p1 : pressedIn s PIND 1 ≠ 0 := (hp 1).mpr rfl
    have p2 : ¬ pressedIn s PIND 2 ≠ 0 := fun c => absurd ((hp 2).mp c) (by decide)
    unfold armed
    rw [tick_count, tick_overflow, handleReset_count, handleReset_overflow,
      handleDecrement_overflow, handleDecrement_count, handleIncrement_count,
      handleIncrement_overflow, if_neg p2, if_neg p2, if_pos p1, if_pos p1, if_neg p0]
    simp only [p0, false_and, if_false, THRESHOLD_TEMP]
    constructor
    · intro hlt
      rw [if_pos hlt]
      simp
    · intro hge
      rw [if_neg hge, if_pos (by omega)]

theorem C4_alarm_on_increment_decrement_witness :
    (armed (tick (stateAt 39 0) pinsIncrement) ↔
      armed (stateAt 39 0) ∨ THRESHOLD_TEMP ≤ (stateAt 39 0).count + 1) ∧
    ((tick (stateAt 40 1) pinsDecrement).count < THRESHOLD_TEMP →
      ¬ armed (tick (stateAt 40 1) pinsDecrement)) :=
  ⟨((C4_alarm_on_increment_decrement (stateAt 39 0) pinsIncrement (by decide)).1
      (by decide)).1,
   ((C4_alarm_on_increment_decrement (stateAt 40 1) pinsDecrement (by decide)).2
      (by decide) (by decide)).1⟩

/-! ## The alarm output through the hardware operations -/

theorem alarmOutput_portClear (n : Nat) (hw : HW) :
    alarmOutput (portClear n hw) = (alarmOutput hw && !decide (n = ALARM_LED)) := by
  simp [alarmOutput, portClear_testBit, ALARM_LED]

theorem alarmOutput_portSet (n : Nat) (hw : HW) :
    alarmOutput (portSet n hw) = (alarmOutput hw || decide (n = ALARM_LED)) := by
  simp [alarmOutput, portSet_testBit, ALARM_LED]

@[simp]
theorem alarmOutput_MAX7219_write (address data : Nat) (hw : HW) :
    alarmOutput (MAX7219_write address data hw) = alarmOutput hw :=
  (MAX7219_write_frame address data hw).2.2.2.2.2.2.2 ALARM_LED
    (by decide) (by decide) (by decide) (by decide)

@[simp]
theorem alarmOutput_displayCount (count : Nat) (hw : HW) :
    alarmOutput (displayCount count hw) = alarmOutput hw := by
  simp [displayCount]

@[simp]
theorem alarmOutput_displayTempUnit (u : Nat) (hw : HW) :
    alarmOutput (displayTempUnit u hw) = alarmOutput hw := by
  unfold displayTempUnit displayCharacter; split <;> simp

@[simp]
theorem alarmOutput_clearDisplayFrom : ∀ (n : Nat) (hw : HW),
    alarmOutput (clearDisplayFrom n hw) = alarmOutput hw
  | 0, _ => rfl
  | n + 1, hw => by rw [clearDisplayFrom, alarmOutput_clearDisplayFrom n]; simp

@[simp]
theorem alarmOutput_clearDisplay (hw : HW) :
    alarmOutput (clearDisplay hw) = alarmOutput hw := by simp [clearDisplay]

@[simp]
theorem alarmOutput_clearLEDs (hw : HW) :
    alarmOutput (clearLEDs hw) = alarmOutput hw := by
  rw [clearLEDs, alarmOutput_portClear]
  simp only [HOT_LED, ALARM_LED]
  simp
  rfl

@[simp]
theorem alarmOutput_updateLEDs (count : Nat) (hw : HW) :
    alarmOutput (updateLEDs count hw) = false := by
  have h : ∀ hw1 : HW, alarmOutput (portClear ALARM_LED hw1) = false := by
    intro hw1; rw [alarmOutput_portClear]; simp
  have h2 : ∀ hw1 : HW, alarmOutput (portSet HOT_LED hw1) = alarmOutput hw1 := by
    intro hw1; rw [alarmOutput_portSet]; simp [HOT_LED, ALARM_LED]
  simp only [updateLEDs]
  split_ifs
  · exact h _
  · exact h _
  · exact h _
  · exact h _
  · rw [h2]; exact h _

theorem alarmOutput_handleToggle (p : Fin 5 → Nat) (s : State) :
    alarmOutput (handleToggle p s).hw = alarmOutput s.hw := by
  simp only [handleToggle]
  split_ifs <;> simp

theorem alarmOutput_render (s : State) (h : alarmOutput s.hw = false) :
    alarmOutput (render s).hw = false := by
  simp only [render]
  split_ifs <;> simp [h]

@[simp]
theorem handleIncrement_hw (p : Fin 5 → Nat) (s : State) :
    (handleIncrement p s).hw = s.hw := by
  simp only [handleIncrement]
  split_ifs <;> rfl

@[simp]
theorem handleIncrement_alarmBlinkFlag (p : Fin 5 → Nat) (s : State) :
    (handleIncrement p s).alarmBlinkFlag = s.alarmBlinkFlag := by
  simp only [handleIncrement]
  split_ifs <;> rfl

@[simp]
theorem handleDecrement_alarmBlinkFlag (p : Fin 5 → Nat) (s : State) :
    (handleDecrement p s).alarmBlinkFlag = s.alarmBlinkFlag := by
  simp only [handleDecrement]
  split_ifs <;> rfl

theorem handleDecrement_alarmOutput (p : Fin 5 → Nat) (s : State) :
    alarmOutput (handleDecrement p s).hw
      = if p 1 ≠ 0 ∧ (handleDecrement p s).count < THRESHOLD_TEMP then false
        else alarmOutput s.hw := by
  rw [handleDecrement_count]
  simp only [handleDecrement]
  split_ifs <;> simp_all [alarmOutput_portClear]

theorem handleReset_alarmBlinkFlag (p : Fin 5 → Nat) (s : State) :
    (handleReset p s).alarmBlinkFlag = if p 2 ≠ 0 then 0 else s.alarmBlinkFlag := by
  unfold handleReset; split <;> rfl

theorem handleReset_alarmOutput (p : Fin 5 → Nat) (s : State) :
    alarmOutput (handleReset p s).hw = if p 2 ≠ 0 then false else alarmOutput s.hw := by
  simp only [handleReset]
  split_ifs <;> simp [alarmOutput_portClear]

/-- After the three count handlers a disarmed alarm has its output off,
provided this held before them. -/
theorem alarmOutput_countHandlers (p : Fin 5 → Nat) (s : State)
    (h : s.overflow = 0 → alarmOutput s.hw = false)
    (h0 : (handleReset p (handleDecrement p (handleIncrement p s))).overflow = 0) :
    alarmOutput (handleReset p (handleDecrement p (handleIncrement p s))).hw = false := by
  revert h0
  rw [handleReset_alarmOutput, handleDecrement_alarmOutput, handleReset_overflow,
    handleDecrement_overflow, handleIncrement_overflow, handleIncrement_hw]
  split_ifs <;> simp_all

theorem countHandlers_alarmBlinkFlag (p : Fin 5 → Nat) (s : State)
    (h0 : (handleReset p (handleDecrement p (handleIncrement p s))).overflow ≠ 0) :
    (handleReset p (handleDecrement p (handleIncrement p s))).alarmBlinkFlag
      = s.alarmBlinkFlag := by
  revert h0
  rw [handleReset_alarmBlinkFlag, handleReset_overflow]
  split_ifs <;> simp

theorem alarmBlink_armed (s : State) (h : s.overflow ≠ 0) :
    (alarmBlink s).alarmBlinkFlag = lnot s.alarmBlinkFlag ∧
    alarmOutput (alarmBlink s).hw = decide (lnot s.alarmBlinkFlag ≠ 0) := by
  simp only [alarmBlink, h]
  split_ifs <;> simp_all [alarmOutput_portClear, alarmOutput_portSet]

theorem alarmBlink_disarmed (s : State) (h : s.overflow = 0) : alarmBlink s = s := by
  simp [alarmBlink, h]

theorem tick_alarm (s : State) (PIND : Fin 5 → Nat)
    (h : s.overflow = 0 → alarmOutput s.hw = false) :
    (armed (tick s PIND) →
      (tick s PIND).alarmBlinkFlag = lnot s.alarmBlinkFlag ∧
      alarmOutput (tick s PIND).hw = decide ((tick s PIND).alarmBlinkFlag ≠ 0)) ∧
    (¬ armed (tick s PIND) → alarmOutput (tick s PIND).hw = false) := by
  have ho := tick_overflow s PIND
  have hov : (render (handleToggle (pressedIn s PIND) (handleMode (pressedIn s PIND)
      (handleReset (pressedIn s PIND) (handleDecrement (pressedIn s PIND)
        (handleIncrement (pressedIn s PIND) s)))))).overflow = (tick s PIND).overflow := by
    rw [ho]; simp
  have ht : tick s PIND = { (alarmBlink (render (handleToggle (pressedIn s PIND)
      (handleMode (pressedIn s PIND) (handleReset (pressedIn s PIND)
        (handleDecrement (pressedIn s PIND) (handleIncrement (pressedIn s PIND) s)))))))
      with prevState := readButtons PIND } := rfl
  unfold armed
  constructor
  · intro ha
    obtain ⟨b1, b2⟩ := alarmBlink_armed _ (hov ▸ ha)
    have hf := countHandlers_alarmBlinkFlag (pressedIn s PIND) s (ho ▸ ha)
    rw [ht]
    simp only [b1, b2, render_alarmBlinkFlag, handleToggle_alarmBlinkFlag,
      handleMode_alarmBlinkFlag, hf]
    trivial
  · intro hn
    have hz : (tick s PIND).overflow = 0 := by simpa using hn
    rw [ht]
    simp only [alarmBlink_disarmed _ (hov.trans hz)]
    apply alarmOutput_render
    rw [alarmOutput_handleToggle, handleMode_hw]
    exact alarmOutput_countHandlers _ s h (ho ▸ hz)

theorem reachable_disarmed_off (s : State) (h : Reachable s) :
    s.overflow = 0 → alarmOutput s.hw = false := by
  induction h with
  | init =>
    intro _
    simp [initState, setup, MAX7219_init]
    rfl
  | step s PIND _ ih =>
    intro hz
    exact (tick_alarm s PIND ih).2 (by simp [armed, hz])

/-- C5: in every reachable state a disarmed alarm has its output off; after
every tick from a reachable state, if the alarm is armed then blink_phase is
the negation of its value at the start of the tick and the alarm output
equals the new blink_phase, so that the output alternates on consecutive
armed ticks, and if the alarm is not armed the alarm output is off. -/
theorem C5_alarm_blink (s : State) (h : Reachable s) (PIND : Fin 5 → Nat) :
    (¬ armed s → alarmOutput s.hw = false) ∧
    (armed (tick s PIND) →
      (tick s PIND).alarmBlinkFlag = lnot s.alarmBlinkFlag ∧
      alarmOutput (tick s PIND).hw = decide ((tick s PIND).alarmBlinkFlag ≠ 0)) ∧
    (¬ armed (tick s PIND) → alarmOutput (tick s PIND).hw = false) ∧
    (∀ PIND2 : Fin 5 → Nat, armed (tick s PIND) → armed (tick (tick s PIND) PIND2) →
      alarmOutput (tick (tick s PIND) PIND2).hw = !alarmOutput (tick s PIND).hw) := by
  have h0 := reachable_disarmed_off s h
  have h1 := reachable_disarmed_off _ (Reachable.step s PIND h)
  obtain ⟨t1, t2⟩ := tick_alarm s PIND h0
  refine ⟨fun hn => h0 (by simpa [armed] using hn), t1, t2, fun PIND2 ha ha2 => ?_⟩
  obtain ⟨_, e1⟩ := t1 ha
  obtain ⟨e2, e3⟩ := (tick_alarm (tick s PIND) PIND2 h1).1 ha2
  rw [e3, e2, e1]
  unfold lnot
  split_ifs with hz
  · simp [hz]
  · simp [hz]

theorem C5_alarm_blink_witness :
    armed (tick (tick initState pinsReleased) pinsDecrement) ∧
    (tick (tick initState pinsReleased) pinsDecrement).alarmBlinkFlag
      = lnot (tick initState pinsReleased).alarmBlinkFlag ∧
    alarmOutput (tick (tick initState pinsReleased) pinsDecrement).hw
      = decide ((tick (tick initState pinsReleased) pinsDecrement).alarmBlinkFlag ≠ 0) :=
  ⟨by decide,
   (C5_alarm_blink (tick initState pinsReleased) (Reachable.step _ _ Reachable.init)
      pinsDecrement).2.1 (by decide)⟩

theorem wrapInt16_eq (x : Int) (h1 : -32768 ≤ x) (h2 : x ≤ 32767) : wrapInt16 x = x := by
  unfold wrapInt16; omega

theorem celsius_to_fahrenheit_eq (c : Nat) (h : c ≤ 200) :
    celsius_to_fahrenheit c = ((c * 9 / 5 + 32 : Nat) : Int) := by
  unfold celsius_to_fahrenheit
  have h1 : wrapInt16 ((c : Int) * 9) = (c : Int) * 9 := wrapInt16_eq _ (by omega) (by omega)
  rw [h1, Int.tdiv_eq_ediv (by omega) (by decide)]
  rw [wrapInt16_eq _ (by omega) (by omega)]
  push_cast
  rfl

/-- C7: for Count in [0, 200], `celsius_to_fahrenheit` is the truncation toward
zero of the exact rational Count*9/5 + 32, which is floor(9*Count/5) + 32, and
the product Count*9 fits a 16-bit signed int; 0, 40 and 100 give 32, 104 and
212. -/
theorem C7_fahrenheit_conversion (c : Nat) (h : c ≤ 200) :
    celsius_to_fahrenheit c = truncateTowardZero (fahrenheitExact c) ∧
    celsius_to_fahrenheit c = ⌊(9 * c : ℚ) / 5⌋ + 32 ∧
    (-32768 ≤ (c : Int) * 9 ∧ (c : Int) * 9 ≤ 32767) ∧
    wrapInt16 ((c : Int) * 9) = (c : Int) * 9 ∧
    celsius_to_fahrenheit 0 = 32 ∧ celsius_to_fahrenheit 40 = 104 ∧
    celsius_to_fahrenheit 100 = 212 := by
  have hf : ⌊(9 * c : ℚ) / 5⌋ = ((c * 9 / 5 : Nat) : Int) := by
    have := Rat.floor_natCast_div_natCast (9 * c) 5
    push_cast at this
    rw [this, Nat.mul_comm]
    norm_cast
  have e := celsius_to_fahrenheit_eq c h
  refine ⟨?_, ?_, ⟨by omega, by omega⟩, wrapInt16_eq _ (by omega) (by omega),
    by decide, by decide, by decide⟩
  · have hq : fahrenheitExact c = (9 * c : ℚ) / 5 + ((32 : ℤ) : ℚ) := by
      unfold fahrenheitExact; push_cast; ring
    have hnn : (0 : ℚ) ≤ fahrenheitExact c := by
      unfold fahrenheitExact; positivity
    rw [truncateTowardZero, if_pos hnn, hq, Int.floor_add_int, hf, e]
    push_cast
    rfl
  · rw [hf, e]
    push_cast
    rfl

theorem C7_fahrenheit_conversion_witness :
    celsius_to_fahrenheit (200 : Nat) = truncateTowardZero (fahrenheitExact (200 : Nat)) :=
  (C7_fahrenheit_conversion 200 (by decide)).1

/-! ## The range table of `updateLEDs` -/

theorem hotOutput_clear_alarm_hot (hw : HW) :
    hotOutput (portClear ALARM_LED (portClear HOT_LED hw)) = false := by
  simp [hotOutput, portClear_testBit, HOT_LED, ALARM_LED]

theorem hotOutput_portSet_hot (hw : HW) : hotOutput (portSet HOT_LED hw) = true := by
  simp [hotOutput, portSet_testBit, HOT_LED]

theorem updateLEDs_OCR0B (count : Nat) (hw : HW) :
    (updateLEDs count hw).OCR0B = if count ≤ 15 then count * 255 / 15 % 256 else 0 := by
  simp only [updateLEDs]
  split_ifs <;> simp

theorem updateLEDs_OCR0A (count : Nat) (hw : HW) :
    (updateLEDs count hw).OCR0A
      = if 16 ≤ count ∧ count ≤ 25 then (count - 16) * 255 / 10 % 256 else 0 := by
  simp only [updateLEDs]
  split_ifs <;> simp <;> omega

theorem updateLEDs_OCR2B (count : Nat) (hw : HW) :
    (updateLEDs count hw).OCR2B
      = if 26 ≤ count ∧ count ≤ 35 then (count - 26) * 255 / 10 % 256 else 0 := by
  simp only [updateLEDs]
  split_ifs <;> simp <;> omega

theorem updateLEDs_OCR2A (count : Nat) (hw : HW) :
    (updateLEDs count hw).OCR2A
      = if 36 ≤ count ∧ count ≤ 40 then (count - 36) * 255 / 5 % 256 else 0 := by
  simp only [updateLEDs]
  split_ifs <;> simp <;> omega

theorem updateLEDs_hotOutput (count : Nat) (hw : HW) :
    hotOutput (updateLEDs count hw) = decide (count > 40) := by
  have hc := hotOutput_clear_alarm_hot
    { hw with OCR0A := 0, OCR0B := 0, OCR2B := 0, OCR2A := 0 }
  have hs := hotOutput_portSet_hot (portClear ALARM_LED (portClear HOT_LED
    { hw with OCR0A := 0, OCR0B := 0, OCR2B := 0, OCR2A := 0 }))
  simp only [updateLEDs]
  split_ifs with h1 h2 h3 h4
  · exact hc.trans (by simp; omega)
  · exact hc.trans (by simp; omega)
  · exact hc.trans (by simp; omega)
  · exact hc.trans (by simp; omega)
  · exact hs.trans (by simp; omega)

/-- C8: for every value in [0, 200] and every prior hardware state,
`updateLEDs` leaves the cold, normal, warm and hot duties at the value of the
range table for the sub-range holding the value and at 0 otherwise, the
over-hot output on iff value > 40, and every duty within 0..255. -/
theorem C8_updateLEDs_range_table (value : Nat) (hw : HW) (h : value ≤ 200) :
    coldDuty (updateLEDs value hw) = (if value ≤ 15 then value * 255 / 15 else 0) ∧
    normalDuty (updateLEDs value hw)
      = (if 16 ≤ value ∧ value ≤ 25 then (value - 16) * 255 / 10 else 0) ∧
    warmDuty (updateLEDs value hw)
      = (if 26 ≤ value ∧ value ≤ 35 then (value - 26) * 255 / 10 else 0) ∧
    hotDuty (updateLEDs value hw)
      = (if 36 ≤ value ∧ value ≤ 40 then (value - 36) * 255 / 5 else 0) ∧
    hotOutput (updateLEDs value hw) = decide (value > 40) ∧
    (coldDuty (updateLEDs value hw) ≤ 255 ∧ normalDuty (updateLEDs value hw) ≤ 255 ∧
      warmDuty (updateLEDs value hw) ≤ 255 ∧ hotDuty (updateLEDs value hw) ≤ 255) ∧
    (value = 0 → coldDuty (updateLEDs value hw) = 0 ∧ normalDuty (updateLEDs value hw) = 0 ∧
      warmDuty (updateLEDs value hw) = 0 ∧ hotDuty (updateLEDs value hw) = 0 ∧
      hotOutput (updateLEDs value hw) = false) ∧
    (value = 15 → coldDuty (updateLEDs value hw) = 255) ∧
    (41 ≤ value → hotOutput (updateLEDs value hw) = true ∧
      coldDuty (updateLEDs value hw) = 0 ∧ normalDuty (updateLEDs value hw) = 0 ∧
      warmDuty (updateLEDs value hw) = 0 ∧ hotDuty (updateLEDs value hw) = 0) := by
  have e1 : coldDuty (updateLEDs value hw) = (if value ≤ 15 then value * 255 / 15 else 0) := by
    rw [coldDuty, updateLEDs_OCR0B]
    split_ifs
    · exact Nat.mod_eq_of_lt (by omega)
    · rfl
  have e2 : normalDuty (updateLEDs value hw)
      = (if 16 ≤ value ∧ value ≤ 25 then (value - 16) * 255 / 10 else 0) := by
    rw [normalDuty, updateLEDs_OCR0A]
    split_ifs
    · exact Nat.mod_eq_of_lt (by omega)
    · rfl
  have e3 : warmDuty (updateLEDs value hw)
      = (if 26 ≤ value ∧ value ≤ 35 then (value - 26) * 255 / 10 else 0) := by
    rw [warmDuty, updateLEDs_OCR2B]
    split_ifs
    · exact Nat.mod_eq_of_lt (by omega)
    · rfl
  have e4 : hotDuty (updateLEDs value hw)
      = (if 36 ≤ value ∧ value ≤ 40 then (value - 36) * 255 / 5 else 0) := by
    rw [hotDuty, updateLEDs_OCR2A]
    split_ifs
    · exact Nat.mod_eq_of_lt (by omega)
    · rfl
  have e5 := updateLEDs_hotOutput value hw
  refine ⟨e1, e2, e3, e4, e5, ?_, ?_, ?_, ?_⟩
  · rw [e1, e2, e3, e4]
    refine ⟨?_, ?_, ?_, ?_⟩ <;> split_ifs <;> omega
  · intro h0
    rw [e1, e2, e3, e4, e5, h0]
    decide
  · intro h15
    rw [e1, h15]
    decide
  · intro h41
    rw [e1, e2, e3, e4, e5]
    refine ⟨by simpa using h41, ?_, ?_, ?_, ?_⟩ <;> split_ifs <;> omega

theorem C8_updateLEDs_range_table_witness :
    coldDuty (updateLEDs 15 powerOn) = 255 ∧ hotOutput (updateLEDs 15 powerOn) = false :=
  ⟨(C8_updateLEDs_range_table 15 powerOn (by decide)).2.2.2.2.2.2.2.1 rfl,
   (C8_updateLEDs_range_table 15 powerOn (by decide)).2.2.2.2.1⟩

/-- C9 (as stated, refuted): for value = 40 the hot duty is not 255. -/
theorem C9_hot_duty_at_40_not_255 : hotDuty (updateLEDs 40 powerOn) ≠ 255 := by
  rw [hotDuty, updateLEDs_OCR2A]
  decide

/-- C9 (amended): for value = 40 `updateLEDs` sets the hot duty to
204 = (40 - 36) * 255 / 5, and no value gives a hot duty above 204. -/
theorem C9_hot_duty_at_40 (hw : HW) (value : Nat) :
    hotDuty (updateLEDs 40 hw) = 204 ∧ hotDuty (updateLEDs value hw) ≤ 204 := by
  constructor
  · rw [hotDuty, updateLEDs_OCR2A]
    decide
  · rw [hotDuty, updateLEDs_OCR2A]
    split_ifs with hr
    · obtain ⟨h36, h40⟩ := hr
      interval_cases value <;> decide
    · exact Nat.zero_le _

/-! ## The clock line idles low, and what the display controller latches -/

theorem portClear_clk (n : Nat) (hw : HW) (h : hw.PORTB.testBit CLK_PIN = false) :
    (portClear n hw).PORTB.testBit CLK_PIN = false := by
  rw [portClear_testBit, h]; simp

theorem portSet_clk (n : Nat) (hw : HW) (hn : n ≠ CLK_PIN)
    (h : hw.PORTB.testBit CLK_PIN = false) :
    (portSet n hw).PORTB.testBit CLK_PIN = false := by
  rw [portSet_testBit, h]; simp [hn]

theorem MAX7219_write_clk (address data : Nat) (hw : HW)
    (h : hw.PORTB.testBit CLK_PIN = false) :
    (MAX7219_write address data hw).PORTB.testBit CLK_PIN = false :=
  (MAX7219_write_frame address data hw).2.2.2.2.2.2.1 h

theorem digit_patterns_lt (i : Nat) : digit_patterns.getD i 0 < 256 := by
  by_cases h : i < 10
  · interval_cases i <;> decide
  · have : digit_patterns.length ≤ i := by simp [digit_patterns]; omega
    rw [List.getD_eq_default _ _ this]
    decide

theorem displayCount_chip (count : Nat) (hw : HW) (h : hw.PORTB.testBit CLK_PIN = false) :
    (displayCount count hw).PORTB.testBit CLK_PIN = false ∧
    (displayCount count hw).digits
      = Function.update (Function.update (Function.update hw.digits
          2 (digit_patterns.getD (count % 10) 0))
          3 (digit_patterns.getD ((count / 10) % 10) 0))
          4 (digit_patterns.getD ((count / 100) % 10) 0) := by
  unfold displayCount
  have h1 := MAX7219_write_clk 2 (digit_patterns.getD (count % 10) 0) hw h
  have h2 := MAX7219_write_clk 3 (digit_patterns.getD ((count / 10) % 10) 0) _ h1
  have h3 := MAX7219_write_clk 4 (digit_patterns.getD ((count / 100) % 10) 0) _ h2
  refine ⟨h3, ?_⟩
  rw [(MAX7219_write_chip 4 _ _ (by decide) (digit_patterns_lt _) h2).1,
    (MAX7219_write_chip 3 _ _ (by decide) (digit_patterns_lt _) h1).1,
    (MAX7219_write_chip 2 _ _ (by decide) (digit_patterns_lt _) h).1]

theorem displayTempUnit_chip (temp_unit : Nat) (hw : HW)
    (h : hw.PORTB.testBit CLK_PIN = false) :
    (displayTempUnit temp_unit hw).PORTB.testBit CLK_PIN = false ∧
    (displayTempUnit temp_unit hw).digits
      = Function.update hw.digits 1 (if temp_unit = 0 then C_pattern else F_pattern) := by
  unfold displayTempUnit displayCharacter
  split_ifs
  · exact ⟨MAX7219_write_clk _ _ _ h,
      (MAX7219_write_chip 1 C_pattern hw (by decide) (by decide) h).1⟩
  · exact ⟨MAX7219_write_clk _ _ _ h,
      (MAX7219_write_chip 1 F_pattern hw (by decide) (by decide) h).1⟩

theorem clearDisplayFrom_clk : ∀ (n : Nat) (hw : HW), hw.PORTB.testBit CLK_PIN = false →
    (clearDisplayFrom n hw).PORTB.testBit CLK_PIN = false
  | 0, _, h => h
  | n + 1, hw, h => by
    rw [clearDisplayFrom]
    exact clearDisplayFrom_clk n _ (MAX7219_write_clk _ _ _ h)

theorem clearLEDs_clk (hw : HW) (h : hw.PORTB.testBit CLK_PIN = false) :
    (clearLEDs hw).PORTB.testBit CLK_PIN = false :=
  portClear_clk _ _ h

theorem updateLEDs_clk (count : Nat) (hw : HW) (h : hw.PORTB.testBit CLK_PIN = false) :
    (updateLEDs count hw).PORTB.testBit CLK_PIN = false := by
  have hc : (portClear ALARM_LED (portClear HOT_LED
      { hw with OCR0A := 0, OCR0B := 0, OCR2B := 0, OCR2A := 0 })).PORTB.testBit CLK_PIN
      = false := portClear_clk _ _ (portClear_clk _ _ h)
  simp only [updateLEDs]
  split_ifs
  · exact hc
  · exact hc
  · exact hc
  · exact hc
  · exact portSet_clk _ _ (by decide) hc

theorem handleDecrement_clk (p : Fin 5 → Nat) (s : State)
    (h : s.hw.PORTB.testBit CLK_PIN = false) :
    (handleDecrement p s).hw.PORTB.testBit CLK_PIN = false := by
  simp only [handleDecrement]
  split_ifs <;> first | exact h | exact portClear_clk _ _ h

theorem handleReset_clk (p : Fin 5 → Nat) (s : State)
    (h : s.hw.PORTB.testBit CLK_PIN = false) :
    (handleReset p s).hw.PORTB.testBit CLK_PIN = false := by
  simp only [handleReset]
  split_ifs <;> first | exact h | exact portClear_clk _ _ h

theorem handleToggle_clk (p : Fin 5 → Nat) (s : State)
    (h : s.hw.PORTB.testBit CLK_PIN = false) :
    (handleToggle p s).hw.PORTB.testBit CLK_PIN = false := by
  simp only [handleToggle]
  split_ifs
  · exact clearLEDs_clk _ h
  · exact clearDisplayFrom_clk 8 _ h
  · exact h

theorem render_clk (s : State) (h : s.hw.PORTB.testBit CLK_PIN = false) :
    (render s).hw.PORTB.testBit CLK_PIN = false := by
  simp only [render]
  split_ifs
  · exact (displayTempUnit_chip _ _ (displayCount_chip _ _ h).1).1
  · exact (displayTempUnit_chip _ _ (displayCount_chip _ _ h).1).1
  · exact updateLEDs_clk _ _ h

theorem alarmBlink_clk (s : State) (h : s.hw.PORTB.testBit CLK_PIN = false) :
    (alarmBlink s).hw.PORTB.testBit CLK_PIN = false := by
  simp only [alarmBlink]
  split_ifs
  · exact portSet_clk _ _ (by decide) h
  · exact portClear_clk _ _ h
  · exact h

theorem alarmBlink_digits (s : State) : (alarmBlink s).hw.digits = s.hw.digits := by
  simp only [alarmBlink]
  split_ifs
  · exact (portSet_chip ALARM_LED _ (by decide) (by decide)).1
  · exact (portClear_chip ALARM_LED _).1
  · rfl

/-- The state a tick renders: the input state after the five button handlers. -/
theorem tick_eq (s : State) (PIND : Fin 5 → Nat) :
    tick s PIND = { (alarmBlink (render (handleToggle (pressedIn s PIND)
      (handleMode (pressedIn s PIND) (handleReset (pressedIn s PIND)
        (handleDecrement (pressedIn s PIND) (handleIncrement (pressedIn s PIND) s)))))))
      with prevState := readButtons PIND } := rfl

theorem tick_clk (s : State) (PIND : Fin 5 → Nat) (h : s.hw.PORTB.testBit CLK_PIN = false) :
    (tick s PIND).hw.PORTB.testBit CLK_PIN = false := by
  rw [tick_eq]
  apply alarmBlink_clk
  apply render_clk
  apply handleToggle_clk
  rw [handleMode_hw]
  apply handleReset_clk
  apply handleDecrement_clk
  rw [handleIncrement_hw]
  exact h

theorem reachable_clk (s : State) (h : Reachable s) : s.hw.PORTB.testBit CLK_PIN = false := by
  induction h with
  | init =>
    simp only [initState, setup, MAX7219_init]
    exact MAX7219_write_clk _ _ _ (MAX7219_write_clk _ _ _ (MAX7219_write_clk _ _ _
      (MAX7219_write_clk _ _ _ (MAX7219_write_clk _ _ _ (by decide)))))
  | step s PIND _ ih => exact tick_clk s PIND ih

@[simp]
theorem render_mode (s : State) : (render s).mode = s.mode := by
  unfold render; split
  · split <;> rfl
  · rfl

@[simp]
theorem render_displayMode (s : State) : (render s).displayMode = s.displayMode := by
  unfold render; split
  · split <;> rfl
  · rfl

@[simp]
theorem alarmBlink_mode (s : State) : (alarmBlink s).mode = s.mode := by
  unfold alarmBlink; split
  · simp only; split <;> rfl
  · rfl

@[simp]
theorem alarmBlink_displayMode (s : State) : (alarmBlink s).displayMode = s.displayMode := by
  unfold alarmBlink; split
  · simp only; split <;> rfl
  · rfl

theorem reachable_count_le (s : State) (h : Reachable s) : s.count ≤ 200 := by
  induction h with
  | init => decide
  | step s PIND _ ih => exact tick_count_le s PIND ih

/-- What `render` leaves in the display controller in digit-matrix mode: the
unit glyph at position 1 and the three digit patterns of the value passed to
`displayCount` at positions 2 to 4. -/
theorem render_digit_matrix (s : State) (h : s.hw.PORTB.testBit CLK_PIN = false)
    (hd : s.displayMode ≠ 0) :
    (render s).hw.digits
      = Function.update (Function.update (Function.update (Function.update s.hw.digits
          2 (digit_patterns.getD
              ((if s.mode = 1 then s.count
                else toUint8 (celsius_to_fahrenheit s.count)) % 10) 0))
          3 (digit_patterns.getD
              ((if s.mode = 1 then s.count
                else toUint8 (celsius_to_fahrenheit s.count)) / 10 % 10) 0))
          4 (digit_patterns.getD
              ((if s.mode = 1 then s.count
                else toUint8 (celsius_to_fahrenheit s.count)) / 100 % 10) 0))
          1 (if s.mode = 1 then C_pattern else F_pattern) := by
  simp only [render, if_pos hd]
  split_ifs with hm
  · obtain ⟨c1, c2⟩ := displayCount_chip s.count s.hw h
    rw [(displayTempUnit_chip 0 _ c1).2, c2]
    rfl
  · obtain ⟨c1, c2⟩ := displayCount_chip (toUint8 (celsius_to_fahrenheit s.count)) s.hw h
    simp only
    rw [(displayTempUnit_chip 1 _ c1).2, c2]
    rfl

theorem toUint8_fahrenheit (c : Nat) (h : c ≤ 200) :
    toUint8 (celsius_to_fahrenheit c) = (c * 9 / 5 + 32) % 256 := by
  rw [celsius_to_fahrenheit_eq c h]
  unfold toUint8
  omega

/-- The value the digit-matrix display shows at the end of a tick from a
reachable state: Count in the native unit, and the low byte of
Count*9/5 + 32 in the converted unit. -/
theorem tick_digit_matrix (s : State) (h : Reachable s) (PIND : Fin 5 → Nat)
    (hd : (tick s PIND).displayMode ≠ 0) :
    (tick s PIND).hw.digits 2 = digit_patterns.getD
        ((if (tick s PIND).mode = 1 then (tick s PIND).count
          else ((tick s PIND).count * 9 / 5 + 32) % 256) % 10) 0 ∧
    (tick s PIND).hw.digits 3 = digit_patterns.getD
        ((if (tick s PIND).mode = 1 then (tick s PIND).count
          else ((tick s PIND).count * 9 / 5 + 32) % 256) / 10 % 10) 0 ∧
    (tick s PIND).hw.digits 4 = digit_patterns.getD
        ((if (tick s PIND).mode = 1 then (tick s PIND).count
          else ((tick s PIND).count * 9 / 5 + 32) % 256) / 100 % 10) 0 ∧
    (tick s PIND).hw.digits 1 = (if (tick s PIND).mode = 1 then C_pattern else F_pattern) := by
  have hle := reachable_count_le _ (Reachable.step s PIND h)
  have hu := toUint8_fahrenheit _ hle
  have hk : (handleToggle (pressedIn s PIND) (handleMode (pressedIn s PIND)
      (handleReset (pressedIn s PIND) (handleDecrement (pressedIn s PIND)
        (handleIncrement (pressedIn s PIND) s))))).hw.PORTB.testBit CLK_PIN = false := by
    apply handleToggle_clk
    rw [handleMode_hw]
    apply handleReset_clk
    apply handleDecrement_clk
    rw [handleIncrement_hw]
    exact reachable_clk s h
  revert hd hu
  rw [tick_eq]
  simp only [alarmBlink_digits, alarmBlink_mode, alarmBlink_displayMode, alarmBlink_count,
    render_mode, render_displayMode, render_count]
  intro hd hu
  rw [render_digit_matrix _ hk hd, ← hu]
  simp

/-- C6 (the code at the failing input Count = 200, converted unit): after an
idle tick and a tick with the decrement and unit buttons pressed, Count is 200
in digit-matrix mode with the converted unit; `celsius_to_fahrenheit` gives 392
but the `uint8_t` argument of `displayCount` is 136, and positions 4, 3, 2
hold the patterns of 1, 3, 6, not those of 3, 9, 2; no 8-bit argument makes
`displayCount` write the pattern of 3 to position 4. -/
theorem C6_converted_display_at_200 :
    (tick (tick initState pinsReleased) pinsDecrementMode).count = 200 ∧
    (tick (tick initState pinsReleased) pinsDecrementMode).mode = 0 ∧
    (tick (tick initState pinsReleased) pinsDecrementMode).displayMode = 1 ∧
    celsius_to_fahrenheit 200 = 392 ∧
    toUint8 (celsius_to_fahrenheit 200) = 136 ∧
    (tick (tick initState pinsReleased) pinsDecrementMode).hw.digits 4
      = digit_patterns.getD 1 0 ∧
    (tick (tick initState pinsReleased) pinsDecrementMode).hw.digits 3
      = digit_patterns.getD 3 0 ∧
    (tick (tick initState pinsReleased) pinsDecrementMode).hw.digits 2
      = digit_patterns.getD 6 0 ∧
    (tick (tick initState pinsReleased) pinsDecrementMode).hw.digits 4
      ≠ digit_patterns.getD 3 0 ∧
    (tick (tick initState pinsReleased) pinsDecrementMode).hw.digits 3
      ≠ digit_patterns.getD 9 0 ∧
    (tick (tick initState pinsReleased) pinsDecrementMode).hw.digits 2
      ≠ digit_patterns.getD 2 0 ∧
    (∀ v : Fin 256, digit_patterns.getD (v.val / 100 % 10) 0 ≠ digit_patterns.getD 3 0) := by
  have hc : (tick (tick initState pinsReleased) pinsDecrementMode).count = 200 := by decide
  have hm : (tick (tick initState pinsReleased) pinsDecrementMode).mode = 0 := by decide
  have hd : (tick (tick initState pinsReleased) pinsDecrementMode).displayMode = 1 := by
    decide
  obtain ⟨d2, d3, d4, _⟩ := tick_digit_matrix (tick initState pinsReleased)
    (Reachable.step _ _ Reachable.init) pinsDecrementMode (by rw [hd]; decide)
  rw [hc, hm] at d2 d3 d4
  have hv : ∀ v : Fin 256,
      digit_patterns.getD (v.val / 100 % 10) 0 ≠ digit_patterns.getD 3 0 := by
    intro v
    have h3 : v.val / 100 % 10 < 3 := by omega
    interval_cases v.val / 100 % 10 <;> decide
  refine ⟨hc, hm, hd, by decide, by decide, ?_, ?_, ?_, ?_, ?_, ?_, hv⟩
  · rw [d4]; decide
  · rw [d3]; decide
  · rw [d2]; decide
  · rw [d4]; decide
  · rw [d3]; decide
  · rw [d2]; decide

/-! ## The port trace of `MAX7219_write` -/

theorem portSet_portLog (n : Nat) (hw : HW) :
    (portSet n hw).portLog = hw.portLog ++ [(portSet n hw).PORTB] := rfl

theorem portClear_portLog (n : Nat) (hw : HW) :
    (portClear n hw).portLog = hw.portLog ++ [(portClear n hw).PORTB] := rfl

theorem clockBit_log (b : Bool) (hw : HW) :
    ∃ v1 v2, (clockBit b hw).portLog = hw.portLog ++ [v1, v2, (clockBit b hw).PORTB] ∧
      (∀ c, v1.testBit c
        = (decide (c < 8) && (if c = DIN_PIN then b else hw.PORTB.testBit c))) ∧
      (∀ c, v2.testBit c
        = (decide (c < 8) && (if c = DIN_PIN then b else if c = CLK_PIN then true
            else hw.PORTB.testBit c))) := by
  cases b
  · refine ⟨(portClear DIN_PIN hw).PORTB, (portSet CLK_PIN (portClear DIN_PIN hw)).PORTB,
      ?_, fun c => ?_, fun c => ?_⟩
    · simp [clockBit, portClear_portLog, portSet_portLog]
    · rw [portClear_testBit]
      simp only [DIN_PIN]
      by_cases h8 : c < 8 <;> by_cases h0 : c = 0 <;> simp [h8, h0, eq_comm]
    · rw [portSet_testBit, portClear_testBit]
      simp only [DIN_PIN, CLK_PIN]
      by_cases h8 : c < 8 <;> by_cases h0 : c = 0 <;> by_cases h5 : c = 5 <;>
        simp [h8, h0, h5, eq_comm]
  · refine ⟨(portSet DIN_PIN hw).PORTB, (portSet CLK_PIN (portSet DIN_PIN hw)).PORTB,
      ?_, fun c => ?_, fun c => ?_⟩
    · simp [clockBit, portClear_portLog, portSet_portLog]
    · rw [portSet_testBit]
      simp only [DIN_PIN]
      by_cases h8 : c < 8 <;> by_cases h0 : c = 0 <;> simp [h8, h0, eq_comm]
    · rw [portSet_testBit, portSet_testBit]
      simp only [DIN_PIN, CLK_PIN]
      by_cases h8 : c < 8 <;> by_cases h0 : c = 0 <;> by_cases h5 : c = 5 <;>
        simp [h8, h0, h5, eq_comm]

theorem shiftOut_log (x : Nat) : ∀ (i : Nat) (hw : HW), hw.PORTB.testBit CLK_PIN = false →
    ∃ tr, (shiftOut x i hw).portLog = hw.portLog ++ tr ∧ tr.length = 3 * i ∧
      (∀ rest, risingSamples CLK_PIN DIN_PIN hw.PORTB (tr ++ rest)
        = bitsFrom x i ++ risingSamples CLK_PIN DIN_PIN (shiftOut x i hw).PORTB rest) ∧
      (∀ rest, fallingEdges CLK_PIN hw.PORTB (tr ++ rest)
        = i + fallingEdges CLK_PIN (shiftOut x i hw).PORTB rest) ∧
      (∀ v ∈ tr, ∀ c, c < 8 → c ≠ DIN_PIN → c ≠ CLK_PIN →
        v.testBit c = hw.PORTB.testBit c)
  | 0, hw, _ => ⟨[], by simp [shiftOut, bitsFrom]⟩
  | i + 1, hw, h => by
    have hk : (clockBit (x.testBit i) hw).PORTB.testBit CLK_PIN = false := by
      rw [clockBit_testBit]; simp [CLK_PIN, DIN_PIN]
    obtain ⟨tr, t1, t2, t3, t4, t5⟩ := shiftOut_log x i (clockBit (x.testBit i) hw) hk
    obtain ⟨v1, v2, l1, l2, l3⟩ := clockBit_log (x.testBit i) hw
    have a1 : v1.testBit CLK_PIN = false := by rw [l2, h]; simp [CLK_PIN, DIN_PIN]
    have a2 : v2.testBit CLK_PIN = true := by rw [l3]; simp [CLK_PIN, DIN_PIN]
    have a3 : v2.testBit DIN_PIN = x.testBit i := by rw [l3]; simp [DIN_PIN]
    refine ⟨v1 :: v2 :: (clockBit (x.testBit i) hw).PORTB :: tr, ?_, ?_, ?_, ?_, ?_⟩
    · rw [shiftOut_succ, t1, l1]; simp
    · simp [t2]; omega
    · intro rest
      rw [shiftOut_succ]
      simp only [List.cons_append, risingSamples, bitsFrom, h, a1, a2, a3, hk]
      simp
      exact t3 rest
    · intro rest
      rw [shiftOut_succ]
      simp only [List.cons_append, fallingEdges, h, a1, a2, hk]
      simp
      rw [t4 rest]
      omega
    · intro v hv c hc hd hq
      simp only [List.mem_cons] at hv
      rcases hv with rfl | rfl | rfl | hv
      · rw [l2]; simp [hc, hd]
      · rw [l3]; simp [hc, hd, hq]
      · rw [clockBit_testBit]; simp [hc, hd, hq]
      · rw [t5 v hv c hc hd hq, clockBit_testBit]; simp [hc, hd, hq]

/-- C10: entered with the clock line low, `MAX7219_write(address, data)` stores
to the port a value with chip-select low first, then 48 values with
chip-select low that hold exactly 16 rising and 16 falling clock edges, the
data line at the rising edges being bits 7..0 of `address` then bits 7..0 of
`data`, and last a value with chip-select high and the clock low; no stored
value differs from the port on entry in a bit other than data, clock and
chip-select, so the alarm and over-hot outputs are unchanged. -/
theorem C10_MAX7219_write_protocol (address data : Nat) (hw : HW)
    (h : hw.PORTB.testBit CLK_PIN = false) :
    ∃ first mid last,
      (MAX7219_write address data hw).portLog = hw.portLog ++ first :: (mid ++ [last]) ∧
      (first.testBit CS_PIN = false ∧ first.testBit CLK_PIN = false) ∧
      mid.length = 48 ∧
      (∀ v ∈ mid, v.testBit CS_PIN = false) ∧
      risingSamples CLK_PIN DIN_PIN hw.PORTB (first :: (mid ++ [last]))
        = [address.testBit 7, address.testBit 6, address.testBit 5, address.testBit 4,
           address.testBit 3, address.testBit 2, address.testBit 1, address.testBit 0,
           data.testBit 7, data.testBit 6, data.testBit 5, data.testBit 4,
           data.testBit 3, data.testBit 2, data.testBit 1, data.testBit 0] ∧
      (risingSamples CLK_PIN DIN_PIN hw.PORTB (first :: (mid ++ [last]))).length = 16 ∧
      risingSamples CLK_PIN DIN_PIN first mid
        = risingSamples CLK_PIN DIN_PIN hw.PORTB (first :: (mid ++ [last])) ∧
      fallingEdges CLK_PIN hw.PORTB (first :: (mid ++ [last])) = 16 ∧
      fallingEdges CLK_PIN first mid = 16 ∧
      (last.testBit CS_PIN = true ∧ last.testBit CLK_PIN = false ∧
        (MAX7219_write address data hw).PORTB = last) ∧
      (∀ v ∈ first :: (mid ++ [last]), ∀ c, c < 8 → c ≠ DIN_PIN → c ≠ CLK_PIN →
        c ≠ CS_PIN → v.testBit c = hw.PORTB.testBit c) ∧
      alarmOutput (MAX7219_write address data hw) = alarmOutput hw ∧
      hotOutput (MAX7219_write address data hw) = hotOutput hw := by
  have h0 : (portClear CS_PIN hw).PORTB.testBit CLK_PIN = false := portClear_clk _ _ h
  have hcs0 : (portClear CS_PIN hw).PORTB.testBit CS_PIN = false := by
    rw [portClear_testBit]; simp
  obtain ⟨_, _, _, _, _, a6, a7⟩ := shiftOut_frame address 8 (portClear CS_PIN hw)
  obtain ⟨_, _, _, _, _, d6, d7⟩ :=
    shiftOut_frame data 8 (shiftOut address 8 (portClear CS_PIN hw))
  obtain ⟨trA, la, na, ra, fa, ba⟩ := shiftOut_log address 8 (portClear CS_PIN hw) h0
  obtain ⟨trD, ld, nd, rd, fd, bd⟩ :=
    shiftOut_log data 8 (shiftOut address 8 (portClear CS_PIN hw)) (a6 h0)
  obtain ⟨_, _, _, _, _, w6, w7, w8⟩ := MAX7219_write_frame address data hw
  have hlast : (MAX7219_write address data hw).PORTB
      = (portSet CS_PIN (shiftOut data 8 (shiftOut address 8 (portClear CS_PIN hw)))).PORTB :=
    rfl
  have hclkD : (shiftOut data 8 (shiftOut address 8 (portClear CS_PIN hw))).PORTB.testBit
      CLK_PIN = false := d6 (a6 h0)
  have hmid : ∀ v ∈ trA ++ trD, ∀ c, c < 8 → c ≠ DIN_PIN → c ≠ CLK_PIN →
      v.testBit c = (portClear CS_PIN hw).PORTB.testBit c := by
    intro v hv c hc hd hk
    rcases List.mem_append.mp hv with hv | hv
    · exact ba v hv c hc hd hk
    · rw [bd v hv c hc hd hk, a7 c hc hd hk]
  have hr : risingSamples CLK_PIN DIN_PIN (portClear CS_PIN hw).PORTB
      ((trA ++ trD) ++ [(MAX7219_write address data hw).PORTB])
      = bitsFrom address 8 ++ bitsFrom data 8 := by
    rw [List.append_assoc, ra, rd]
    simp [risingSamples, w7 h]
  have hr2 : risingSamples CLK_PIN DIN_PIN (portClear CS_PIN hw).PORTB (trA ++ trD)
      = bitsFrom address 8 ++ bitsFrom data 8 := by
    have e := ra (trD ++ [])
    rw [rd] at e
    simpa [risingSamples] using e
  have hf : fallingEdges CLK_PIN (portClear CS_PIN hw).PORTB
      ((trA ++ trD) ++ [(MAX7219_write address data hw).PORTB]) = 16 := by
    rw [List.append_assoc, fa, fd]
    simp [fallingEdges, hclkD]
  have hf2 : fallingEdges CLK_PIN (portClear CS_PIN hw).PORTB (trA ++ trD) = 16 := by
    have e := fa (trD ++ [])
    rw [fd] at e
    simpa [fallingEdges] using e
  refine ⟨(portClear CS_PIN hw).PORTB, trA ++ trD, (MAX7219_write address data hw).PORTB,
    ?_, ⟨hcs0, h0⟩, ?_, ?_, ?_, ?_, ?_, ?_, hf2, ⟨w6, w7 h, rfl⟩, ?_, ?_, ?_⟩
  · unfold MAX7219_write
    rw [portSet_portLog, ld, la, portClear_portLog]
    simp
  · simp [na, nd]
  · intro v hv
    rw [hmid v hv CS_PIN (by decide) (by decide) (by decide), hcs0]
  · simp only [risingSamples, h, h0, Bool.not_false, Bool.and_false, Bool.false_eq_true,
      if_false, hr]
    rfl
  · simp only [risingSamples, h, h0, Bool.not_false, Bool.and_false, Bool.false_eq_true,
      if_false, hr]
    rfl
  · simp only [risingSamples, h, h0, Bool.not_false, Bool.and_false, Bool.false_eq_true,
      if_false, hr, hr2]
  · simp only [fallingEdges, h, h0, Bool.false_and, Bool.false_eq_true, if_false, hf]
  · intro v hv c hc hd hk hs
    have hp : (portClear CS_PIN hw).PORTB.testBit c = hw.PORTB.testBit c := by
      rw [portClear_testBit]; simp [hc, Ne.symm hs]
    simp only [List.mem_cons, List.mem_append, List.not_mem_nil, or_false] at hv
    rcases hv with rfl | hv | rfl
    · exact hp
    · rw [hmid v (List.mem_append.mpr hv) c hc hd hk, hp]
    · exact w8 c hc hd hk hs
  · exact alarmOutput_MAX7219_write address data hw
  · exact w8 HOT_LED (by decide) (by decide) (by decide) (by decide)

theorem C10_MAX7219_write_protocol_witness :
    ∃ first mid last,
      (MAX7219_write 0x0A 0x0F powerOn).portLog
        = powerOn.portLog ++ first :: (mid ++ [last]) ∧
      risingSamples CLK_PIN DIN_PIN powerOn.PORTB (first :: (mid ++ [last]))
        = [false, false, false, false, true, false, true, false,
           false, false, false, false, true, true, true, true] := by
  obtain ⟨first, mid, last, h1, _, _, _, h5, _⟩ :=
    C10_MAX7219_write_protocol 0x0A 0x0F powerOn (by decide)
  exact ⟨first, mid, last, h1, by rw [h5]; decide⟩

/-! ## Unit mode and display mode through a tick -/

@[simp]
theorem handleIncrement_mode (p : Fin 5 → Nat) (s : State) :
    (handleIncrement p s).mode = s.mode := by
  simp only [handleIncrement]
  split_ifs <;> rfl

@[simp]
theorem handleIncrement_displayMode (p : Fin 5 → Nat) (s : State) :
    (handleIncrement p s).displayMode = s.displayMode := by
  simp only [handleIncrement]
  split_ifs <;> rfl

@[simp]
theorem handleDecrement_mode (p : Fin 5 → Nat) (s : State) :
    (handleDecrement p s).mode = s.mode := by
  simp only [handleDecrement]
  split_ifs <;> rfl

@[simp]
theorem handleDecrement_displayMode (p : Fin 5 → Nat) (s : State) :
    (handleDecrement p s).displayMode = s.displayMode := by
  simp only [handleDecrement]
  split_ifs <;> rfl

@[simp]
theorem handleReset_mode (p : Fin 5 → Nat) (s : State) :
    (handleReset p s).mode = s.mode := by
  unfold handleReset; split <;> rfl

@[simp]
theorem handleReset_displayMode (p : Fin 5 → Nat) (s : State) :
    (handleReset p s).displayMode = s.displayMode := by
  unfold handleReset; split <;> rfl

theorem handleMode_mode (p : Fin 5 → Nat) (s : State) :
    (handleMode p s).mode = if p 3 ≠ 0 then lnot s.mode else s.mode := by
  unfold handleMode; split <;> rfl

@[simp]
theorem handleMode_displayMode (p : Fin 5 → Nat) (s : State) :
    (handleMode p s).displayMode = s.displayMode := by
  unfold handleMode; split <;> rfl

@[simp]
theorem handleToggle_mode (p : Fin 5 → Nat) (s : State) :
    (handleToggle p s).mode = s.mode := by
  simp only [handleToggle]
  split_ifs <;> rfl

theorem handleToggle_displayMode (p : Fin 5 → Nat) (s : State) :
    (handleToggle p s).displayMode
      = if p 4 ≠ 0 then lnot s.displayMode else s.displayMode := by
  simp only [handleToggle]
  split_ifs <;> rfl

theorem tick_mode (s : State) (PIND : Fin 5 → Nat) :
    (tick s PIND).mode = if pressedIn s PIND 3 ≠ 0 then lnot s.mode else s.mode := by
  rw [tick_eq]
  simp [handleMode_mode]

theorem tick_displayMode (s : State) (PIND : Fin 5 → Nat) :
    (tick s PIND).displayMode
      = if pressedIn s PIND 4 ≠ 0 then lnot s.displayMode else s.displayMode := by
  rw [tick_eq]
  simp [handleToggle_displayMode]

theorem tick_prevState (s : State) (PIND : Fin 5 → Nat) :
    (tick s PIND).prevState = readButtons PIND := rfl

theorem lnot_le_one (x : Nat) : lnot x ≤ 1 := by
  unfold lnot; split_ifs <;> omega

theorem lnot_lnot (x : Nat) (h : x ≤ 1) : lnot (lnot x) = x := by
  interval_cases x <;> rfl

theorem reachable_modes (s : State) (h : Reachable s) : s.mode ≤ 1 ∧ s.displayMode ≤ 1 := by
  induction h with
  | init => exact ⟨by decide, by decide⟩
  | step s PIND _ ih =>
    rw [tick_mode, tick_displayMode]
    constructor
    · split_ifs
      · exact lnot_le_one _
      · exact ih.1
    · split_ifs
      · exact lnot_le_one _
      · exact ih.2

theorem tick_count_quiet (s : State) (PIND : Fin 5 → Nat)
    (h0 : pressedIn s PIND 0 = 0) (h1 : pressedIn s PIND 1 = 0) (h2 : pressedIn s PIND 2 = 0) :
    (tick s PIND).count = s.count := by
  rw [tick_count, handleReset_count, handleDecrement_count, handleIncrement_count]
  simp [h0, h1, h2]

theorem pressedIn_iff (s : State) (PIND : Fin 5 → Nat) (k : Fin 5) :
    pressedIn s PIND k ≠ 0 ↔ readButtons PIND k ≠ 0 ∧ s.prevState k = 0 := by
  unfold pressedIn detectPresses lnot
  split_ifs <;> simp_all

/-! ## The edge detector over several ticks -/

theorem pressTrace_held (k : Fin 5) : ∀ (rest : List (Fin 5 → Nat)) (s : State),
    s.prevState k ≠ 0 → (∀ P ∈ rest, readButtons P k ≠ 0) →
    pressTrace k s rest = List.replicate rest.length false
  | [], _, _, _ => rfl
  | P :: Ps, s, h, hall => by
    have hp : ¬ pressedIn s P k ≠ 0 := fun c => h ((pressedIn_iff s P k).mp c).2
    have hr : readButtons P k ≠ 0 := hall P (List.mem_cons_self _ _)
    simp only [pressTrace, List.length_cons, List.replicate_succ, hp, decide_False]
    rw [pressTrace_held k Ps (tick s P) (by rw [tick_prevState]; exact hr)
      (fun Q hQ => hall Q (List.mem_cons_of_mem _ hQ))]

/-- C11: the pressed flag of a button in a tick is set iff the button is
asserted in this tick's sample and was not asserted in the stored previous
sample; the tick stores the current sample as the previous one; so a button
that was unasserted and is asserted for the n >= 1 ticks of a sequence has a
press event on the first of them and on no other. -/
theorem C11_edge_detector (s : State) (PIND : Fin 5 → Nat) (k : Fin 5) :
    (pressedIn s PIND k ≠ 0 ↔ readButtons PIND k ≠ 0 ∧ s.prevState k = 0) ∧
    (pressedIn s PIND k = 1 ∨ pressedIn s PIND k = 0) ∧
    (tick s PIND).prevState = readButtons PIND ∧
    (∀ rest : List (Fin 5 → Nat), s.prevState k = 0 → readButtons PIND k ≠ 0 →
      (∀ P ∈ rest, readButtons P k ≠ 0) →
      pressTrace k s (PIND :: rest) = true :: List.replicate rest.length false ∧
      (pressTrace k s (PIND :: rest)).count true = 1) := by
  refine ⟨pressedIn_iff s PIND k, ?_, rfl, fun rest h0 h1 hall => ?_⟩
  · unfold pressedIn detectPresses
    split_ifs
    · exact Or.inl rfl
    · exact Or.inr rfl
  · have hp : pressedIn s PIND k ≠ 0 := (pressedIn_iff s PIND k).mpr ⟨h1, h0⟩
    have e : pressTrace k s (PIND :: rest) = true :: List.replicate rest.length false := by
      rw [pressTrace, pressTrace_held k rest (tick s PIND)
        (by rw [tick_prevState]; exact h1) hall]
      simp [hp]
    refine ⟨e, ?_⟩
    rw [e, List.count_cons_self, List.count_replicate]
    simp

theorem C11_edge_detector_witness :
    pressTrace 0 (stateAt 0 0) [pinsIncrement, pinsIncrement]
      = true :: List.replicate [pinsIncrement].length false :=
  ((C11_edge_detector (stateAt 0 0) pinsIncrement 0).2.2.2 [pinsIncrement] (by decide)
    (by decide) (by decide)).1

/-- C15: after every tick with a reset event, whatever the other events and
the state before, Count is 0, the alarm is disarmed, blink_phase is 0 and the
alarm output is off. -/
theorem C15_reset_priority (s : State) (PIND : Fin 5 → Nat)
    (h : pressedIn s PIND 2 ≠ 0) :
    (tick s PIND).count = 0 ∧ ¬ armed (tick s PIND) ∧
    (tick s PIND).alarmBlinkFlag = 0 ∧ alarmOutput (tick s PIND).hw = false := by
  have hc : (tick s PIND).count = 0 := by rw [tick_count, handleReset_count, if_pos h]
  have ho : (tick s PIND).overflow = 0 := by rw [tick_overflow, handleReset_overflow, if_pos h]
  have hov : (render (handleToggle (pressedIn s PIND) (handleMode (pressedIn s PIND)
      (handleReset (pressedIn s PIND) (handleDecrement (pressedIn s PIND)
        (handleIncrement (pressedIn s PIND) s)))))).overflow = 0 := by
    simp [handleReset_overflow, h]
  refine ⟨hc, by simp [armed, ho], ?_, ?_⟩
  · rw [tick_eq]
    simp only [alarmBlink_disarmed _ hov, render_alarmBlinkFlag, handleToggle_alarmBlinkFlag,
      handleMode_alarmBlinkFlag, handleReset_alarmBlinkFlag, if_pos h]
  · rw [tick_eq]
    simp only [alarmBlink_disarmed _ hov]
    apply alarmOutput_render
    rw [alarmOutput_handleToggle, handleMode_hw, handleReset_alarmOutput, if_pos h]

theorem C15_reset_priority_witness :
    (tick (stateAt 199 1) pinsAll).count = 0 ∧ ¬ armed (tick (stateAt 199 1) pinsAll) ∧
    (tick (stateAt 199 1) pinsAll).alarmBlinkFlag = 0 ∧
    alarmOutput (tick (stateAt 199 1) pinsAll).hw = false :=
  C15_reset_priority (stateAt 199 1) pinsAll (by decide)

/-- C16 (as stated, refuted): at startup the stored previous level of the
increment button is 1, which is asserted in the normalized convention, and a
first tick that samples the button as asserted has no press event for it. -/
theorem C16_first_tick_no_event :
    initState.prevState 0 ≠ 0 ∧ readButtons pinsIncrement 0 ≠ 0 ∧
    pressedIn initState pinsIncrement 0 = 0 ∧
    (tick initState pinsIncrement).count = 0 := by
  decide

/-- C16 (amended): at startup Count is 0, the alarm is disarmed and the stored
previous level of each of the five buttons is 1 (asserted in the normalized
convention), so the first tick has no press event whatever is sampled and
leaves Count at 0; a button held through the first tick has its press event
on a later tick only after a sample in which it is released. -/
theorem C16_startup_state (PIND : Fin 5 → Nat) (k : Fin 5) :
    initState.count = 0 ∧ ¬ armed initState ∧ initState.prevState k = 1 ∧
    pressedIn initState PIND k = 0 ∧ (tick initState PIND).count = 0 ∧
    ¬ armed (tick initState PIND) ∧
    (∀ P2 : Fin 5 → Nat, pressedIn (tick initState PIND) P2 k ≠ 0 ↔
      readButtons P2 k ≠ 0 ∧ readButtons PIND k = 0) := by
  have hp : ∀ i, pressedIn initState PIND i = 0 := by
    intro i
    by_contra hc
    exact Nat.one_ne_zero ((pressedIn_iff initState PIND i).mp hc).2
  refine ⟨rfl, by decide, rfl, hp k, ?_, ?_, fun P2 => ?_⟩
  · rw [tick_count_quiet _ _ (hp 0) (hp 1) (hp 2)]; rfl
  · unfold armed
    rw [tick_overflow, handleReset_overflow, handleDecrement_overflow,
      handleIncrement_overflow]
    simp [hp]
    rfl
  · rw [pressedIn_iff, tick_prevState]

/-! ## Runs of ticks without events -/

theorem runTicks_cons (s : State) (P : Fin 5 → Nat) (Ps : List (Fin 5 → Nat)) :
    runTicks s (P :: Ps) = runTicks (tick s P) Ps := rfl

theorem runTicks_mode : ∀ (Ps : List (Fin 5 → Nat)) (s : State),
    unpressedRun 3 s Ps → (runTicks s Ps).mode = s.mode
  | [], _, _ => rfl
  | P :: Ps, s, h => by
    rw [runTicks_cons, runTicks_mode Ps (tick s P) h.2, tick_mode]
    simp [h.1]

theorem runTicks_displayMode : ∀ (Ps : List (Fin 5 → Nat)) (s : State),
    unpressedRun 4 s Ps → (runTicks s Ps).displayMode = s.displayMode
  | [], _, _ => rfl
  | P :: Ps, s, h => by
    rw [runTicks_cons, runTicks_displayMode Ps (tick s P) h.2, tick_displayMode]
    simp [h.1]

/-- C17: in every tick, Count is unchanged if none of increment, decrement and
reset occurs; Unit Mode is flipped if the unit-toggle event occurs and
unchanged otherwise; Display Mode is flipped if the display-toggle event
occurs and unchanged otherwise; two unit-toggle events, or two display-toggle
events, with no such event between them restore the original mode. -/
theorem C17_mode_frame (s : State) (PIND : Fin 5 → Nat) :
    (pressedIn s PIND 0 = 0 → pressedIn s PIND 1 = 0 → pressedIn s PIND 2 = 0 →
      (tick s PIND).count = s.count) ∧
    (tick s PIND).mode = (if pressedIn s PIND 3 ≠ 0 then lnot s.mode else s.mode) ∧
    (tick s PIND).displayMode
      = (if pressedIn s PIND 4 ≠ 0 then lnot s.displayMode else s.displayMode) ∧
    (pressedIn s PIND 3 ≠ 0 → s.mode ≤ 1 → ((tick s PIND).mode = 1 ↔ ¬ s.mode = 1)) ∧
    (pressedIn s PIND 4 ≠ 0 → ((tick s PIND).displayMode ≠ 0 ↔ ¬ s.displayMode ≠ 0)) ∧
    (∀ (mids : List (Fin 5 → Nat)) (P2 : Fin 5 → Nat), s.mode ≤ 1 →
      pressedIn s PIND 3 ≠ 0 → unpressedRun 3 (tick s PIND) mids →
      pressedIn (runTicks (tick s PIND) mids) P2 3 ≠ 0 →
      (tick (runTicks (tick s PIND) mids) P2).mode = s.mode) ∧
    (∀ (mids : List (Fin 5 → Nat)) (P2 : Fin 5 → Nat), s.displayMode ≤ 1 →
      pressedIn s PIND 4 ≠ 0 → unpressedRun 4 (tick s PIND) mids →
      pressedIn (runTicks (tick s PIND) mids) P2 4 ≠ 0 →
      (tick (runTicks (tick s PIND) mids) P2).displayMode = s.displayMode) := by
  refine ⟨tick_count_quiet s PIND, tick_mode s PIND, tick_displayMode s PIND, ?_, ?_, ?_, ?_⟩
  · intro hp hm
    rw [tick_mode, if_pos hp]
    interval_cases hs : s.mode <;> simp [lnot]
  · intro hp
    rw [tick_displayMode, if_pos hp]
    unfold lnot
    split_ifs with hz <;> simp [hz]
  · intro mids P2 hm hp hq hp2
    rw [tick_mode, if_pos hp2, runTicks_mode mids _ hq, tick_mode, if_pos hp, lnot_lnot _ hm]
  · intro mids P2 hm hp hq hp2
    rw [tick_displayMode, if_pos hp2, runTicks_displayMode mids _ hq, tick_displayMode,
      if_pos hp, lnot_lnot _ hm]

theorem C17_mode_frame_witness :
    (tick (runTicks (tick (stateAt 7 0) pinsMode) [pinsReleased]) pinsMode).mode
      = (stateAt 7 0).mode ∧
    (tick (runTicks (tick (stateAt 7 0) pinsToggle) [pinsReleased]) pinsToggle).displayMode
      = (stateAt 7 0).displayMode ∧
    (tick (stateAt 7 0) pinsMode).count = (stateAt 7 0).count :=
  ⟨(C17_mode_frame (stateAt 7 0) pinsMode).2.2.2.2.2.1 [pinsReleased] pinsMode
      (by decide) (by decide) ⟨by decide, trivial⟩ (by decide),
   (C17_mode_frame (stateAt 7 0) pinsToggle).2.2.2.2.2.2 [pinsReleased] pinsToggle
      (by decide) (by decide) ⟨by decide, trivial⟩ (by decide),
   (C17_mode_frame (stateAt 7 0) pinsMode).1 (by decide) (by decide) (by decide)⟩

/-- C20: from Count in [0, 200], a tick with both the increment and the
decrement event and no reset event leaves Count unchanged unless Count is 199,
where it yields 200; the increment handler never leaves Count at 200, and a
tick ends with Count = 200 only if it started there with no increment and no
decrement event, or its decrement handler ran at Count = 0. -/
theorem C20_increment_then_decrement (s : State) (PIND : Fin 5 → Nat) (h : s.count ≤ 200) :
    (pressedIn s PIND 0 ≠ 0 → pressedIn s PIND 1 ≠ 0 → pressedIn s PIND 2 = 0 →
      (s.count ≠ 199 → (tick s PIND).count = s.count) ∧
      (s.count = 199 → (tick s PIND).count = 200)) ∧
    (pressedIn s PIND 0 ≠ 0 → (handleIncrement (pressedIn s PIND) s).count ≠ 200) ∧
    (pressedIn s PIND 0 ≠ 0 → pressedIn s PIND 1 = 0 → (tick s PIND).count ≠ 200) ∧
    ((tick s PIND).count = 200 →
      (pressedIn s PIND 0 = 0 ∧ pressedIn s PIND 1 = 0 ∧ s.count = 200) ∨
      (pressedIn s PIND 1 ≠ 0 ∧ (handleIncrement (pressedIn s PIND) s).count = 0)) := by
  refine ⟨fun h0 h1 h2 => ?_, fun h0 => ?_, fun h0 h1 => ?_, ?_⟩
  · rw [tick_count, handleReset_count, handleDecrement_count, handleIncrement_count]
    simp only [h0, h1, h2, ne_eq, not_true_eq_false, not_false_eq_true, if_true, if_false]
    constructor <;> intro hc <;> split_ifs <;> omega
  · rw [handleIncrement_count, if_pos h0]
    split_ifs <;> omega
  · rw [tick_count, handleReset_count, handleDecrement_count, handleIncrement_count]
    simp only [h0, h1, ne_eq, not_true_eq_false, not_false_eq_true, if_true, if_false]
    split_ifs <;> first | omega | exact not_false
  · rw [tick_count, handleReset_count, handleDecrement_count, handleIncrement_count]
    by_cases h0 : pressedIn s PIND 0 = 0 <;> by_cases h1 : pressedIn s PIND 1 = 0 <;>
      by_cases h2 : pressedIn s PIND 2 = 0 <;>
      simp only [h0, h1, h2, ne_eq, not_true_eq_false, not_false_eq_true, if_true, if_false,
        true_and, false_and, and_true, or_false, false_or] <;>
      (try split_ifs) <;> intro hc <;> first | omega | trivial

theorem C20_increment_then_decrement_witness :
    (tick (stateAt 57 1) pinsIncrementDecrement).count = (stateAt 57 1).count ∧
    (tick (stateAt 199 1) pinsIncrementDecrement).count = 200 :=
  ⟨((C20_increment_then_decrement (stateAt 57 1) pinsIncrementDecrement (by decide)).1
      (by decide) (by decide) (by decide)).1 (by decide),
   ((C20_increment_then_decrement (stateAt 199 1) pinsIncrementDecrement (by decide)).1
      (by decide) (by decide) (by decide)).2 rfl⟩

/-! ## The analog outputs and the display registers through the operations -/

theorem duties_portSet (n : Nat) (hw : HW) : duties (portSet n hw) = duties hw := rfl

theorem duties_portClear (n : Nat) (hw : HW) : duties (portClear n hw) = duties hw := rfl

theorem duties_MAX7219_write (address data : Nat) (hw : HW) :
    duties (MAX7219_write address data hw) = duties hw := by
  obtain ⟨h1, h2, h3, h4, _⟩ := MAX7219_write_frame address data hw
  simp only [duties, coldDuty, normalDuty, warmDuty, hotDuty, h1, h2, h3, h4]

theorem duties_displayCount (count : Nat) (hw : HW) :
    duties (displayCount count hw) = duties hw := by
  simp only [displayCount, duties_MAX7219_write]

theorem duties_displayTempUnit (u : Nat) (hw : HW) :
    duties (displayTempUnit u hw) = duties hw := by
  unfold displayTempUnit displayCharacter
  split <;> exact duties_MAX7219_write _ _ _

theorem duties_clearLEDs (hw : HW) : duties (clearLEDs hw) = [0, 0, 0, 0] := rfl

theorem duties_updateLEDs (count : Nat) (hw hw2 : HW) :
    duties (updateLEDs count hw) = duties (updateLEDs count hw2) := by
  simp only [duties, coldDuty, normalDuty, warmDuty, hotDuty, updateLEDs_OCR0A,
    updateLEDs_OCR0B, updateLEDs_OCR2A, updateLEDs_OCR2B]

theorem duties_alarmBlink (s : State) : duties (alarmBlink s).hw = duties s.hw := by
  simp only [alarmBlink]
  split_ifs <;> rfl

theorem hotOutput_portClear (n : Nat) (hw : HW) :
    hotOutput (portClear n hw) = (hotOutput hw && !decide (n = HOT_LED)) := by
  simp [hotOutput, portClear_testBit, HOT_LED]

theorem hotOutput_portSet (n : Nat) (hw : HW) :
    hotOutput (portSet n hw) = (hotOutput hw || decide (n = HOT_LED)) := by
  simp [hotOutput, portSet_testBit, HOT_LED]

theorem hotOutput_MAX7219_write (address data : Nat) (hw : HW) :
    hotOutput (MAX7219_write address data hw) = hotOutput hw :=
  (MAX7219_write_frame address data hw).2.2.2.2.2.2.2 HOT_LED
    (by decide) (by decide) (by decide) (by decide)

theorem hotOutput_displayCount (count : Nat) (hw : HW) :
    hotOutput (displayCount count hw) = hotOutput hw := by
  simp only [displayCount, hotOutput_MAX7219_write]

theorem hotOutput_displayTempUnit (u : Nat) (hw : HW) :
    hotOutput (displayTempUnit u hw) = hotOutput hw := by
  unfold displayTempUnit displayCharacter
  split <;> exact hotOutput_MAX7219_write _ _ _

theorem hotOutput_clearLEDs (hw : HW) : hotOutput (clearLEDs hw) = false := by
  rw [clearLEDs, hotOutput_portClear]
  simp

theorem hotOutput_alarmBlink (s : State) : hotOutput (alarmBlink s).hw = hotOutput s.hw := by
  simp only [alarmBlink]
  split_ifs
  · rw [hotOutput_portSet]; simp [ALARM_LED, HOT_LED]
  · rw [hotOutput_portClear]; simp [ALARM_LED, HOT_LED]
  · rfl

theorem updateLEDs_digits (count : Nat) (hw : HW) :
    (updateLEDs count hw).digits = hw.digits := by
  have hc : (portClear ALARM_LED (portClear HOT_LED
      { hw with OCR0A := 0, OCR0B := 0, OCR2B := 0, OCR2A := 0 })).digits = hw.digits := by
    rw [(portClear_chip _ _).1, (portClear_chip _ _).1]
  simp only [updateLEDs]
  split_ifs
  · exact hc
  · exact hc
  · exact hc
  · exact hc
  · rw [(portSet_chip HOT_LED _ (by decide) (by decide)).1, hc]

/-- With the clock idle low on entry, the loop of `clearDisplay` entered with
`n` positions left writes 0 to positions `9 - n` to 8. -/
theorem clearDisplayFrom_chip : ∀ (n : Nat) (hw : HW), n ≤ 8 →
    hw.PORTB.testBit CLK_PIN = false →
    ∀ k, (clearDisplayFrom n hw).digits k = if 9 - n ≤ k ∧ k ≤ 8 then 0 else hw.digits k
  | 0, hw, _, _, k => by
    rw [clearDisplayFrom]
    split_ifs with hk
    · omega
    · rfl
  | n + 1, hw, hn, h, k => by
    rw [clearDisplayFrom, clearDisplayFrom_chip n _ (by omega) (MAX7219_write_clk _ _ _ h) k,
      (MAX7219_write_chip (9 - (n + 1)) 0 hw (by omega) (by decide) h).1]
    by_cases hk : k = 9 - (n + 1)
    · subst hk
      rw [if_neg (by omega), Function.update_same, if_pos ⟨le_refl _, by omega⟩]
    · rw [Function.update_noteq hk]
      by_cases h1 : 9 - n ≤ k ∧ k ≤ 8
      · rw [if_pos h1, if_pos ⟨by omega, h1.2⟩]
      · rw [if_neg h1, if_neg (by omega)]

theorem clearDisplay_chip (hw : HW) (h : hw.PORTB.testBit CLK_PIN = false) (k : Nat)
    (h1 : 1 ≤ k) (h8 : k ≤ 8) : (clearDisplay hw).digits k = 0 := by
  rw [clearDisplay, clearDisplayFrom_chip 8 hw (le_refl _) h k, if_pos ⟨by omega, h8⟩]

/-! ## What a tick leaves on the two display surfaces -/

theorem tick_eq_handled (s : State) (PIND : Fin 5 → Nat) :
    tick s PIND
      = { (alarmBlink (render (handled s PIND))) with prevState := readButtons PIND } := rfl

theorem handled_count (s : State) (PIND : Fin 5 → Nat) :
    (handled s PIND).count = (tick s PIND).count := by
  rw [tick_eq_handled]; simp

theorem handled_mode (s : State) (PIND : Fin 5 → Nat) :
    (handled s PIND).mode = (tick s PIND).mode := by
  rw [tick_eq_handled]; simp

theorem handled_displayMode (s : State) (PIND : Fin 5 → Nat) :
    (handled s PIND).displayMode = (tick s PIND).displayMode := by
  rw [tick_eq_handled]; simp

theorem countHandlers_clk (s : State) (PIND : Fin 5 → Nat)
    (h : s.hw.PORTB.testBit CLK_PIN = false) :
    (handleMode (pressedIn s PIND) (handleReset (pressedIn s PIND)
      (handleDecrement (pressedIn s PIND)
        (handleIncrement (pressedIn s PIND) s)))).hw.PORTB.testBit CLK_PIN = false := by
  rw [handleMode_hw]
  apply handleReset_clk
  apply handleDecrement_clk
  rw [handleIncrement_hw]
  exact h

theorem handled_clk (s : State) (PIND : Fin 5 → Nat)
    (h : s.hw.PORTB.testBit CLK_PIN = false) :
    (handled s PIND).hw.PORTB.testBit CLK_PIN = false :=
  handleToggle_clk _ _ (countHandlers_clk s PIND h)

theorem handleToggle_hw_pressed (p : Fin 5 → Nat) (s : State) (h : p 4 ≠ 0) :
    (handleToggle p s).hw
      = if (handleToggle p s).displayMode ≠ 0 then clearLEDs s.hw else clearDisplay s.hw := by
  rw [handleToggle_displayMode, if_pos h]
  simp only [handleToggle, if_pos h]
  split_ifs <;> rfl

theorem render_hw_analog (s : State) (h : s.displayMode = 0) :
    (render s).hw = updateLEDs s.count s.hw := by
  simp [render, h]

theorem render_hw_digit (s : State) (h : s.displayMode ≠ 0) :
    (render s).hw
      = displayTempUnit (if s.mode = 1 then 0 else 1)
          (displayCount (if s.mode = 1 then s.count
            else toUint8 (celsius_to_fahrenheit s.count)) s.hw) := by
  simp only [render, if_pos h]
  split_ifs <;> rfl

/-- A tick with a display-toggle event that ends in analog mode leaves the
eight digit positions at 0. -/
theorem tick_to_analog_blank (s : State) (PIND : Fin 5 → Nat)
    (hclk : s.hw.PORTB.testBit CLK_PIN = false) (hp : pressedIn s PIND 4 ≠ 0)
    (hm : (tick s PIND).displayMode = 0) (k : Nat) (h1 : 1 ≤ k) (h8 : k ≤ 8) :
    (tick s PIND).hw.digits k = 0 := by
  have hd : (handled s PIND).displayMode = 0 := (handled_displayMode s PIND).trans hm
  have hh := handleToggle_hw_pressed (pressedIn s PIND) (handleMode (pressedIn s PIND)
    (handleReset (pressedIn s PIND) (handleDecrement (pressedIn s PIND)
      (handleIncrement (pressedIn s PIND) s)))) hp
  have hd2 : (handleToggle (pressedIn s PIND) (handleMode (pressedIn s PIND)
    (handleReset (pressedIn s PIND) (handleDecrement (pressedIn s PIND)
      (handleIncrement (pressedIn s PIND) s))))).displayMode = 0 := hd
  rw [hd2] at hh
  rw [tick_eq_handled]
  simp only [alarmBlink_digits]
  rw [render_hw_analog _ hd, updateLEDs_digits]
  unfold handled
  rw [hh]
  exact clearDisplay_chip _ (countHandlers_clk s PIND hclk) k h1 h8

/-- A tick with a display-toggle event that ends in digit-matrix mode leaves
the four duties at 0 and the over-hot output off. -/
theorem tick_to_digit_analog_off (s : State) (PIND : Fin 5 → Nat)
    (hp : pressedIn s PIND 4 ≠ 0) (hm : (tick s PIND).displayMode ≠ 0) :
    duties (tick s PIND).hw = [0, 0, 0, 0] ∧ hotOutput (tick s PIND).hw = false := by
  have hd : (handled s PIND).displayMode ≠ 0 := by rw [handled_displayMode]; exact hm
  have hh := handleToggle_hw_pressed (pressedIn s PIND) (handleMode (pressedIn s PIND)
    (handleReset (pressedIn s PIND) (handleDecrement (pressedIn s PIND)
      (handleIncrement (pressedIn s PIND) s)))) hp
  have hd2 : (handleToggle (pressedIn s PIND) (handleMode (pressedIn s PIND)
    (handleReset (pressedIn s PIND) (handleDecrement (pressedIn s PIND)
      (handleIncrement (pressedIn s PIND) s))))).displayMode ≠ 0 := hd
  rw [if_pos hd2] at hh
  rw [tick_eq_handled]
  constructor
  · show duties (alarmBlink (render (handled s PIND))).hw = _
    rw [duties_alarmBlink, render_hw_digit _ hd, duties_displayTempUnit, duties_displayCount]
    unfold handled
    rw [hh, duties_clearLEDs]
  · show hotOutput (alarmBlink (render (handled s PIND))).hw = _
    rw [hotOutput_alarmBlink, render_hw_digit _ hd, hotOutput_displayTempUnit,
      hotOutput_displayCount]
    unfold handled
    rw [hh, hotOutput_clearLEDs]

/-- A tick that ends in analog mode leaves the duties and the over-hot output
that `updateLEDs` gives for the Count at the end of the tick. -/
theorem tick_analog (s : State) (PIND : Fin 5 → Nat) (hm : (tick s PIND).displayMode = 0)
    (hw2 : HW) :
    duties (tick s PIND).hw = duties (updateLEDs (tick s PIND).count hw2) ∧
    hotOutput (tick s PIND).hw = hotOutput (updateLEDs (tick s PIND).count hw2) := by
  have hd : (handled s PIND).displayMode = 0 := (handled_displayMode s PIND).trans hm
  rw [← handled_count, tick_eq_handled]
  constructor
  · show duties (alarmBlink (render (handled s PIND))).hw = _
    rw [duties_alarmBlink, render_hw_analog _ hd]
    exact duties_updateLEDs _ _ _
  · show hotOutput (alarmBlink (render (handled s PIND))).hw = _
    rw [hotOutput_alarmBlink, render_hw_analog _ hd, updateLEDs_hotOutput,
      updateLEDs_hotOutput]

/-- C12: in every tick with a display-toggle event, whatever the other events:
if the tick ends in analog mode (entered with the clock line idle low, as in
every reachable state), the eight digit positions hold 0 at the end of the
tick; if it ends in digit-matrix mode, the four PWM duties are 0 and the
over-hot output is off at the end of the tick. -/
theorem C12_toggle_clears_inactive_surface (s : State) (PIND : Fin 5 → Nat)
    (hp : pressedIn s PIND 4 ≠ 0) :
    ((tick s PIND).displayMode = 0 → s.hw.PORTB.testBit CLK_PIN = false →
      ∀ k, 1 ≤ k → k ≤ 8 → (tick s PIND).hw.digits k = 0) ∧
    ((tick s PIND).displayMode ≠ 0 →
      coldDuty (tick s PIND).hw = 0 ∧ normalDuty (tick s PIND).hw = 0 ∧
      warmDuty (tick s PIND).hw = 0 ∧ hotDuty (tick s PIND).hw = 0 ∧
      hotOutput (tick s PIND).hw = false) ∧
    (Reachable s → s.hw.PORTB.testBit CLK_PIN = false) := by
  refine ⟨fun hm hclk k h1 h8 => tick_to_analog_blank s PIND hclk hp hm k h1 h8,
    fun hm => ?_, reachable_clk s⟩
  obtain ⟨hd, ho⟩ := tick_to_digit_analog_off s PIND hp hm
  simp only [duties, List.cons.injEq, and_true] at hd
  exact ⟨hd.1, hd.2.1, hd.2.2.1, hd.2.2.2, ho⟩

theorem C12_toggle_clears_inactive_surface_witness :
    ((tick (stateAt 40 1) pinsAll).hw.digits 1 = 0 ∧
      (tick (stateAt 40 1) pinsAll).hw.digits 8 = 0) ∧
    (hotDuty (tick { stateAt 40 1 with displayMode := 0 } pinsToggle).hw = 0 ∧
      hotOutput (tick { stateAt 40 1 with displayMode := 0 } pinsToggle).hw = false) :=
  ⟨⟨(C12_toggle_clears_inactive_surface (stateAt 40 1) pinsAll (by decide)).1 (by decide)
      (reachable_clk initState Reachable.init) 1 (by decide) (by decide),
    (C12_toggle_clears_inactive_surface (stateAt 40 1) pinsAll (by decide)).1 (by decide)
      (reachable_clk initState Reachable.init) 8 (by decide) (by decide)⟩,
   ⟨((C12_toggle_clears_inactive_surface { stateAt 40 1 with displayMode := 0 } pinsToggle
      (by decide)).2.1 (by decide)).2.2.2.1,
    ((C12_toggle_clears_inactive_surface { stateAt 40 1 with displayMode := 0 } pinsToggle
      (by decide)).2.1 (by decide)).2.2.2.2⟩⟩

/-- C14: for a state and the same state with another Unit Mode, a tick with
the same input samples that ends in analog mode for one ends in analog mode
for the other, with the same Count, the same four PWM duties and the same
over-hot output, which are those of `updateLEDs` applied to that Count. -/
theorem C14_analog_independent_of_unit (s : State) (mode2 : Nat) (PIND : Fin 5 → Nat)
    (hm : (tick s PIND).displayMode = 0) :
    (tick { s with mode := mode2 } PIND).displayMode = 0 ∧
    (tick { s with mode := mode2 } PIND).count = (tick s PIND).count ∧
    coldDuty (tick { s with mode := mode2 } PIND).hw = coldDuty (tick s PIND).hw ∧
    normalDuty (tick { s with mode := mode2 } PIND).hw = normalDuty (tick s PIND).hw ∧
    warmDuty (tick { s with mode := mode2 } PIND).hw = warmDuty (tick s PIND).hw ∧
    hotDuty (tick { s with mode := mode2 } PIND).hw = hotDuty (tick s PIND).hw ∧
    hotOutput (tick { s with mode := mode2 } PIND).hw = hotOutput (tick s PIND).hw ∧
    (∀ hw2 : HW,
      coldDuty (tick s PIND).hw = coldDuty (updateLEDs (tick s PIND).count hw2) ∧
      normalDuty (tick s PIND).hw = normalDuty (updateLEDs (tick s PIND).count hw2) ∧
      warmDuty (tick s PIND).hw = warmDuty (updateLEDs (tick s PIND).count hw2) ∧
      hotDuty (tick s PIND).hw = hotDuty (updateLEDs (tick s PIND).count hw2) ∧
      hotOutput (tick s PIND).hw = hotOutput (updateLEDs (tick s PIND).count hw2)) := by
  have hd : (tick { s with mode := mode2 } PIND).displayMode = (tick s PIND).displayMode := by
    rw [tick_displayMode, tick_displayMode]
    rfl
  have hc : (tick { s with mode := mode2 } PIND).count = (tick s PIND).count := by
    rw [tick_count, tick_count, handleReset_count, handleReset_count, handleDecrement_count,
      handleDecrement_count, handleIncrement_count, handleIncrement_count]
    rfl
  have a1 := tick_analog s PIND hm powerOn
  have a2 := tick_analog { s with mode := mode2 } PIND (hd.trans hm) powerOn
  rw [hc] at a2
  have ed : duties (tick { s with mode := mode2 } PIND).hw = duties (tick s PIND).hw :=
    a2.1.trans a1.1.symm
  simp only [duties, List.cons.injEq, and_true] at ed
  refine ⟨hd.trans hm, hc, ed.1, ed.2.1, ed.2.2.1, ed.2.2.2, a2.2.trans a1.2.symm,
    fun hw2 => ?_⟩
  have a3 := tick_analog s PIND hm hw2
  have e3 := a3.1
  simp only [duties, List.cons.injEq, and_true] at e3
  exact ⟨e3.1, e3.2.1, e3.2.2.1, e3.2.2.2, a3.2⟩

theorem C14_analog_independent_of_unit_witness :
    (tick { stateAt 30 0 with mode := 0 } pinsToggle).displayMode = 0 ∧
    warmDuty (tick { stateAt 30 0 with mode := 0 } pinsToggle).hw
      = warmDuty (tick (stateAt 30 0) pinsToggle).hw :=
  ⟨(C14_analog_independent_of_unit (stateAt 30 0) 0 pinsToggle (by decide)).1,
   (C14_analog_independent_of_unit (stateAt 30 0) 0 pinsToggle (by decide)).2.2.2.2.1⟩

/-! ## The digit table -/

theorem digit_patterns_lookup (i : Nat) (h : i < 10) :
    digit_patterns[i]? = some (digit_patterns.getD i 0) := by
  interval_cases i <;> rfl

theorem digit_patterns_inj (i j : Nat) (hi : i < 10) (hj : j < 10)
    (h : digit_patterns.getD i 0 = digit_patterns.getD j 0) : i = j := by
  interval_cases i <;> interval_cases j <;> first | rfl | exact absurd h (by decide)

theorem displayCount_digits (count : Nat) (hw : HW) (h : hw.PORTB.testBit CLK_PIN = false) :
    (displayCount count hw).digits 2 = digit_patterns.getD (count % 10) 0 ∧
    (displayCount count hw).digits 3 = digit_patterns.getD ((count / 10) % 10) 0 ∧
    (displayCount count hw).digits 4 = digit_patterns.getD ((count / 100) % 10) 0 := by
  rw [(displayCount_chip count hw h).2]
  simp [Function.update]

/-- The unit glyph a tick leaves at position 1 in digit-matrix mode. -/
theorem tick_glyph (s : State) (PIND : Fin 5 → Nat)
    (h : s.hw.PORTB.testBit CLK_PIN = false) (hd : (tick s PIND).displayMode ≠ 0) :
    (tick s PIND).hw.digits 1 = if (tick s PIND).mode = 1 then C_pattern else F_pattern := by
  have hd2 : (handled s PIND).displayMode ≠ 0 := by rw [handled_displayMode]; exact hd
  rw [← handled_mode, tick_eq_handled]
  simp only [alarmBlink_digits]
  rw [render_digit_matrix _ (handled_clk s PIND h) hd2, Function.update_same]

/-- C18: for every 8-bit value v, with the clock line idle low on entry,
`displayCount(v)` leaves `digit_patterns[v mod 10]` at position 2,
`digit_patterns[(v / 10) mod 10]` at position 3 and
`digit_patterns[(v / 100) mod 10]` at position 4, each index lying within the
table of 10 entries; a tick that ends in digit-matrix mode leaves the C
pattern at position 1 when Unit Mode is native (1) and the F pattern
otherwise. -/
theorem C18_displayCount_digits (v : Nat) (hw : HW) (hv : v ≤ 255)
    (h : hw.PORTB.testBit CLK_PIN = false) :
    digit_patterns.length = 10 ∧
    (v % 10 < digit_patterns.length ∧ (v / 10) % 10 < digit_patterns.length ∧
      (v / 100) % 10 < digit_patterns.length ∧ (v / 100) % 10 ≤ 2) ∧
    digit_patterns[v % 10]? = some ((displayCount v hw).digits 2) ∧
    digit_patterns[(v / 10) % 10]? = some ((displayCount v hw).digits 3) ∧
    digit_patterns[(v / 100) % 10]? = some ((displayCount v hw).digits 4) ∧
    (∀ (s : State) (PIND : Fin 5 → Nat), s.hw.PORTB.testBit CLK_PIN = false →
      (tick s PIND).displayMode ≠ 0 →
      ((tick s PIND).mode = 1 → (tick s PIND).hw.digits 1 = C_pattern) ∧
      ((tick s PIND).mode ≠ 1 → (tick s PIND).hw.digits 1 = F_pattern)) := by
  have hl : digit_patterns.length = 10 := rfl
  obtain ⟨d2, d3, d4⟩ := displayCount_digits v hw h
  refine ⟨hl, ⟨by omega, by omega, by omega, by omega⟩, ?_, ?_, ?_, fun s PIND hs hd => ?_⟩
  · rw [d2]; exact digit_patterns_lookup _ (by omega)
  · rw [d3]; exact digit_patterns_lookup _ (by omega)
  · rw [d4]; exact digit_patterns_lookup _ (by omega)
  · have hg := tick_glyph s PIND hs hd
    constructor
    · intro hm; rw [hg, if_pos hm]
    · intro hm; rw [hg, if_neg hm]

theorem C18_displayCount_digits_witness :
    digit_patterns[255 % 10]? = some ((displayCount 255 powerOn).digits 2) ∧
    digit_patterns[(255 / 100) % 10]? = some ((displayCount 255 powerOn).digits 4) :=
  ⟨(C18_displayCount_digits 255 powerOn (by decide) (by decide)).2.2.1,
   (C18_displayCount_digits 255 powerOn (by decide) (by decide)).2.2.2.2.1⟩

/-- C19: the ten digit patterns are pairwise distinct and have bit 7 clear,
the C and F patterns differ, and two 8-bit values for which `displayCount`
(entered with the clock line idle low) leaves the same patterns at positions
2, 3 and 4 are equal. -/
theorem C19_display_unambiguous :
    digit_patterns.Nodup ∧ digit_patterns.length = 10 ∧
    (∀ p ∈ digit_patterns, p.testBit 7 = false ∧ p < 128) ∧
    C_pattern ≠ F_pattern ∧
    (∀ (v w : Nat) (hw1 hw2 : HW), v ≤ 255 → w ≤ 255 →
      hw1.PORTB.testBit CLK_PIN = false → hw2.PORTB.testBit CLK_PIN = false →
      (displayCount v hw1).digits 2 = (displayCount w hw2).digits 2 →
      (displayCount v hw1).digits 3 = (displayCount w hw2).digits 3 →
      (displayCount v hw1).digits 4 = (displayCount w hw2).digits 4 → v = w) := by
  refine ⟨by decide, rfl, by decide, by decide, ?_⟩
  intro v w hw1 hw2 hv hw h1 h2 e2 e3 e4
  obtain ⟨a2, a3, a4⟩ := displayCount_digits v hw1 h1
  obtain ⟨b2, b3, b4⟩ := displayCount_digits w hw2 h2
  rw [a2, b2] at e2
  rw [a3, b3] at e3
  rw [a4, b4] at e4
  have c2 := digit_patterns_inj _ _ (by omega) (by omega) e2
  have c3 := digit_patterns_inj _ _ (by omega) (by omega) e3
  have c4 := digit_patterns_inj _ _ (by omega) (by omega) e4
  omega

theorem C19_display_unambiguous_witness :
    ¬ ((displayCount 12 powerOn).digits 2 = (displayCount 21 powerOn).digits 2 ∧
       (displayCount 12 powerOn).digits 3 = (displayCount 21 powerOn).digits 3 ∧
       (displayCount 12 powerOn).digits 4 = (displayCount 21 powerOn).digits 4) ∧
    (123 : Nat) = 123 :=
  ⟨fun h => absurd (C19_display_unambiguous.2.2.2.2 12 21 powerOn powerOn (by decide)
      (by decide) (by decide) (by decide) h.1 h.2.1 h.2.2) (by decide),
   C19_display_unambiguous.2.2.2.2 123 123 powerOn powerOn (by decide) (by decide)
      (by decide) (by decide) rfl rfl rfl⟩

/-! ## Two display-toggle events -/

theorem runTicks_reachable : ∀ (Ps : List (Fin 5 → Nat)) (s : State),
    Reachable s → Reachable (runTicks s Ps)
  | [], _, h => h
  | P :: Ps, s, h => runTicks_reachable Ps (tick s P) (Reachable.step s P h)

theorem quietRun_unpressed (k : Fin 5) : ∀ (Ps : List (Fin 5 → Nat)) (s : State),
    quietRun s Ps → unpressedRun k s Ps
  | [], _, _ => trivial
  | P :: Ps, s, h => ⟨h.1 k, quietRun_unpressed k Ps (tick s P) h.2⟩

theorem runTicks_count : ∀ (Ps : List (Fin 5 → Nat)) (s : State),
    quietRun s Ps → (runTicks s Ps).count = s.count
  | [], _, _ => rfl
  | P :: Ps, s, h => by
    rw [runTicks_cons, runTicks_count Ps (tick s P) h.2,
      tick_count_quiet s P (h.1 0) (h.1 1) (h.1 2)]

theorem onlyPressed_four (p : Fin 5 → Nat) (h : onlyPressed 4 p) :
    p 0 = 0 ∧ p 1 = 0 ∧ p 2 = 0 ∧ p 3 = 0 ∧ p 4 ≠ 0 := by
  refine ⟨?_, ?_, ?_, ?_, (h 4).mpr rfl⟩
  · by_contra c; exact absurd ((h 0).mp c) (by decide)
  · by_contra c; exact absurd ((h 1).mp c) (by decide)
  · by_contra c; exact absurd ((h 2).mp c) (by decide)
  · by_contra c; exact absurd ((h 3).mp c) (by decide)

/-- Count, Unit Mode and Display Mode after two ticks with only the
display-toggle event and only event-free ticks between them. -/
theorem afterTwoPresses_fields (s : State) (P1 : Fin 5 → Nat) (mids : List (Fin 5 → Nat))
    (P2 : Fin 5 → Nat) (hd : s.displayMode ≤ 1)
    (h1 : onlyPressed 4 (pressedIn s P1)) (hq : quietRun (tick s P1) mids)
    (h2 : onlyPressed 4 (pressedIn (runTicks (tick s P1) mids) P2)) :
    (afterTwoPresses s P1 mids P2).count = s.count ∧
    (afterTwoPresses s P1 mids P2).mode = s.mode ∧
    (afterTwoPresses s P1 mids P2).displayMode = s.displayMode := by
  obtain ⟨a0, a1, a2, a3, a4⟩ := onlyPressed_four _ h1
  obtain ⟨b0, b1, b2, b3, b4⟩ := onlyPressed_four _ h2
  unfold afterTwoPresses
  refine ⟨?_, ?_, ?_⟩
  · rw [tick_count_quiet _ _ b0 b1 b2, runTicks_count mids _ hq, tick_count_quiet _ _ a0 a1 a2]
  · rw [tick_mode, runTicks_mode mids _ (quietRun_unpressed 3 mids _ hq), tick_mode]
    simp [a3, b3]
  · rw [tick_displayMode, if_pos b4, runTicks_displayMode mids _ (quietRun_unpressed 4 mids _ hq),
      tick_displayMode, if_pos a4, lnot_lnot _ hd]

/-- C13: from the state at the end of a tick from a reachable state, two ticks
with only the display-toggle event, with only event-free ticks between them,
restore Display Mode and leave Count and Unit Mode unchanged; starting in
digit-matrix mode, positions 1 to 4 hold the same patterns as before and the
four duties are 0 with the over-hot output off; starting in analog mode, the
four duties and the over-hot output are as before and the eight digit
positions hold 0. -/
theorem C13_toggle_round_trip (s0 : State) (h : Reachable s0) (P0 P1 P2 : Fin 5 → Nat)
    (mids : List (Fin 5 → Nat))
    (h1 : onlyPressed 4 (pressedIn (tick s0 P0) P1))
    (hq : quietRun (tick (tick s0 P0) P1) mids)
    (h2 : onlyPressed 4 (pressedIn (runTicks (tick (tick s0 P0) P1) mids) P2)) :
    (afterTwoPresses (tick s0 P0) P1 mids P2).displayMode = (tick s0 P0).displayMode ∧
    (afterTwoPresses (tick s0 P0) P1 mids P2).count = (tick s0 P0).count ∧
    (afterTwoPresses (tick s0 P0) P1 mids P2).mode = (tick s0 P0).mode ∧
    ((tick s0 P0).displayMode ≠ 0 →
      (∀ k, 1 ≤ k → k ≤ 4 →
        (afterTwoPresses (tick s0 P0) P1 mids P2).hw.digits k = (tick s0 P0).hw.digits k) ∧
      coldDuty (afterTwoPresses (tick s0 P0) P1 mids P2).hw = 0 ∧
      normalDuty (afterTwoPresses (tick s0 P0) P1 mids P2).hw = 0 ∧
      warmDuty (afterTwoPresses (tick s0 P0) P1 mids P2).hw = 0 ∧
      hotDuty (afterTwoPresses (tick s0 P0) P1 mids P2).hw = 0 ∧
      hotOutput (afterTwoPresses (tick s0 P0) P1 mids P2).hw = false) ∧
    ((tick s0 P0).displayMode = 0 →
      coldDuty (afterTwoPresses (tick s0 P0) P1 mids P2).hw = coldDuty (tick s0 P0).hw ∧
      normalDuty (afterTwoPresses (tick s0 P0) P1 mids P2).hw = normalDuty (tick s0 P0).hw ∧
      warmDuty (afterTwoPresses (tick s0 P0) P1 mids P2).hw = warmDuty (tick s0 P0).hw ∧
      hotDuty (afterTwoPresses (tick s0 P0) P1 mids P2).hw = hotDuty (tick s0 P0).hw ∧
      hotOutput (afterTwoPresses (tick s0 P0) P1 mids P2).hw = hotOutput (tick s0 P0).hw ∧
      (∀ k, 1 ≤ k → k ≤ 8 →
        (afterTwoPresses (tick s0 P0) P1 mids P2).hw.digits k = 0)) := by
  have hs : Reachable (tick s0 P0) := Reachable.step s0 P0 h
  have hm : Reachable (runTicks (tick (tick s0 P0) P1) mids) :=
    runTicks_reachable mids _ (Reachable.step _ P1 hs)
  obtain ⟨fc, fm, fd⟩ := afterTwoPresses_fields (tick s0 P0) P1 mids P2
    (reachable_modes _ hs).2 h1 hq h2
  have hp2 := (onlyPressed_four _ h2).2.2.2.2
  simp only [afterTwoPresses] at fc fm fd ⊢
  refine ⟨fd, fc, fm, fun hd => ?_, fun hd => ?_⟩
  · have hd2 : (tick (runTicks (tick (tick s0 P0) P1) mids) P2).displayMode ≠ 0 := by
      rw [fd]; exact hd
    obtain ⟨x2, x3, x4, x1⟩ := tick_digit_matrix s0 h P0 hd
    obtain ⟨y2, y3, y4, y1⟩ := tick_digit_matrix _ hm P2 hd2
    obtain ⟨od, oh⟩ := tick_to_digit_analog_off _ P2 hp2 hd2
    simp only [duties, List.cons.injEq, and_true] at od
    refine ⟨fun k k1 k4 => ?_, od.1, od.2.1, od.2.2.1, od.2.2.2, oh⟩
    simp only [fc, fm] at y1 y2 y3 y4
    interval_cases k
    · rw [y1, x1]
    · rw [y2, x2]
    · rw [y3, x3]
    · rw [y4, x4]
  · have hd2 : (tick (runTicks (tick (tick s0 P0) P1) mids) P2).displayMode = 0 := by
      rw [fd]; exact hd
    have a1 := tick_analog s0 P0 hd powerOn
    have a2 := tick_analog _ P2 hd2 powerOn
    rw [fc] at a2
    have ed := a2.1.trans a1.1.symm
    simp only [duties, List.cons.injEq, and_true] at ed
    exact ⟨ed.1, ed.2.1, ed.2.2.1, ed.2.2.2, a2.2.trans a1.2.symm,
      fun k k1 k8 => tick_to_analog_blank _ P2 (reachable_clk _ hm) hp2 hd2 k k1 k8⟩

theorem C13_toggle_round_trip_witness :
    (afterTwoPresses (tick initState pinsReleased) pinsToggle [pinsReleased]
      pinsToggle).displayMode = (tick initState pinsReleased).displayMode ∧
    (afterTwoPresses (tick initState pinsReleased) pinsToggle [pinsReleased]
      pinsToggle).hw.digits 2 = (tick initState pinsReleased).hw.digits 2 ∧
    hotOutput (afterTwoPresses (tick initState pinsReleased) pinsToggle [pinsReleased]
      pinsToggle).hw = false :=
  ⟨(C13_toggle_round_trip initState Reachable.init pinsReleased pinsToggle pinsToggle
      [pinsReleased] (by decide) ⟨by decide, trivial⟩ (by decide)).1,
   ((C13_toggle_round_trip initState Reachable.init pinsReleased pinsToggle pinsToggle
      [pinsReleased] (by decide) ⟨by decide, trivial⟩ (by decide)).2.2.2.1
        (by decide)).1 2 (by decide) (by decide),
   ((C13_toggle_round_trip initState Reachable.init pinsReleased pinsToggle pinsToggle
      [pinsReleased] (by decide) ⟨by decide, trivial⟩ (by decide)).2.2.2.1
        (by decide)).2.2.2.2.2⟩

end TempMonitor
